import Mathlib

/-!
# CinderBasicApp: the ball engine of `src/BasicApp.cpp`

A shallow embedding of `PhysicsEngine::BallEngine` (integration, boundary
confinement, pairwise collision response) and of the pointer handlers of
`BasicApp`, together with theorems about them.

Scalars: the program computes in `float`.  The source lines are embedded
twice.

* Namespace `Binary32` gives every arithmetic operation and comparison its
  IEEE 754 binary32 meaning, over the type `F32` of binary32 values: each
  operation returns the exact result rounded to the nearest binary32 value,
  ties to even, one operation at a time (no fused multiply-add, no wider
  intermediate precision).  NaN and the infinities are values.  Every statement
  whose truth depends on the value of a computed number (distances, normals,
  overlaps, mirror images, damped velocities, integrated positions) is made
  about this embedding and its closed instances are evaluated in it.

* The same lines over an arbitrary linearly ordered field `K`, with the square
  root used by `glm::length` and `glm::normalize` as a parameter
  `sqrt : K → K` (`IsSqrt sqrt` is assumed where its value matters; closed
  statements are evaluated over `ℝ` with `Real.sqrt`).  A division by a zero
  length, which yields NaN in the program, is modelled there by `none`:
  `Update` answers `none` when a tick writes NaN anywhere, and `UpdateTracked`
  follows the same loops keeping apart the bodies that received it.  The
  statements about which fields a branch writes (dragged bodies, the top edge,
  idempotence of confinement, the constructor, the pointer handlers) are made
  about this embedding.

The pointer handlers act on the engine together with the index of the grabbed
body.
-/

namespace PhysicsEngine

/-! ## Data model -/

/-- Two-component vector, `glm::vec2`. -/
@[ext]
structure Vec2 (K : Type) where
  x : K
  y : K

/-- Integer size, `glm::ivec2`. -/
structure IVec2 where
  x : Int
  y : Int

/-- The body, `struct BallStruct`. -/
structure BallStruct (K : Type) where
  position : Vec2 K
  velocity : Vec2 K
  isBeingDragged : Bool

/-- The force generator, `struct BallForce`. -/
structure BallForce (K : Type) where
  name : String
  velocity : Vec2 K

/-- The settings, `struct EngineSettings`. -/
structure EngineSettings where
  bounds : IVec2

/-- The state owned by `class BallEngine`: bodies, forces and settings. -/
structure BallEngine (K : Type) where
  balls : List (BallStruct K)
  forces : List (BallForce K)
  settings : EngineSettings

section Defs

variable {K : Type} [LinearOrderedField K]

/-- Constant `#define BALL_RADIUS 32.f`. -/
def BALL_RADIUS : K := 32

/-- Constant `#define VELO_DAMPIN 0.45f`. -/
def VELO_DAMPIN : K := 0.45

/-! ## Vector operations of glm -/

/-- Componentwise sum, `operator+` on `glm::vec2`. -/
def Vec2.add (a b : Vec2 K) : Vec2 K := ⟨a.x + b.x, a.y + b.y⟩

/-- Componentwise difference, `operator-` on `glm::vec2`. -/
def Vec2.sub (a b : Vec2 K) : Vec2 K := ⟨a.x - b.x, a.y - b.y⟩

/-- Vector times scalar, `operator*` on `glm::vec2` and `float`. -/
def Vec2.scale (a : Vec2 K) (s : K) : Vec2 K := ⟨a.x * s, a.y * s⟩

/-- Dot product, `glm::dot`. -/
def Vec2.dot (a b : Vec2 K) : K := a.x * b.x + a.y * b.y

/-- Euclidean length, `glm::length(v) = sqrt(dot(v, v))`. -/
def glmLength (sqrt : K → K) (v : Vec2 K) : K := sqrt (v.dot v)

/-- Unit vector, `glm::normalize(v) = v * inversesqrt(dot(v, v))`.  When the
length is zero the program multiplies zero by an infinite factor and obtains
NaN components; this is `none`. -/
def glmNormalize (sqrt : K → K) (v : Vec2 K) : Option (Vec2 K) :=
  if sqrt (v.dot v) = 0 then none else some (v.scale (1 / sqrt (v.dot v)))

/-- Mirror image, `glm::reflect(I, N) = I - N * dot(N, I) * 2`. -/
def glmReflect (I N : Vec2 K) : Vec2 K := I.sub ((N.scale (N.dot I)).scale 2)

/-- Distance of two points, `glm::distance(p0, p1) = length(p1 - p0)`. -/
def glmDistance (sqrt : K → K) (p0 p1 : Vec2 K) : K := glmLength sqrt (p1.sub p0)

/-! ## `BallEngine::Update`, first loop: integration and confinement -/

/-- Lines 70-75: a body that is not dragged receives every force, in order,
and then moves by its new velocity. -/
def integrate (forces : List (BallForce K)) (ball : BallStruct K) : BallStruct K :=
  if !ball.isBeingDragged then
    let velocity := forces.foldl (fun v force => v.add force.velocity) ball.velocity
    { ball with velocity := velocity, position := ball.position.add velocity }
  else ball

/-- Lines 76-81: the bottom edge. -/
def bottomEdge (bounds : IVec2) (ball : BallStruct K) : BallStruct K :=
  if ball.position.y ≥ (bounds.y : K) - BALL_RADIUS * 0.5 then
    if ball.velocity.y > 0 then
      { ball with
        velocity := ⟨ball.velocity.x, ball.velocity.y * -VELO_DAMPIN⟩
        position := ⟨ball.position.x, (bounds.y : K) - BALL_RADIUS * 0.5⟩ }
    else ball
  else ball

/-- Lines 82-87: the top edge. -/
def topEdge (ball : BallStruct K) : BallStruct K :=
  if ball.position.y ≤ BALL_RADIUS * 0.5 then
    if ball.velocity.y < 0 then
      { ball with
        velocity := ⟨ball.velocity.x, 0⟩
        position := ⟨ball.position.x, BALL_RADIUS * 0.5⟩ }
    else ball
  else ball

/-- Lines 88-93: the left edge. -/
def leftEdge (ball : BallStruct K) : BallStruct K :=
  if ball.position.x ≤ BALL_RADIUS * 0.5 then
    if ball.velocity.x < 0 then
      { ball with
        velocity := ⟨ball.velocity.x * (-VELO_DAMPIN * VELO_DAMPIN), ball.velocity.y⟩
        position := ⟨BALL_RADIUS * 0.5, ball.position.y⟩ }
    else ball
  else ball

/-- Lines 94-99: the right edge. -/
def rightEdge (bounds : IVec2) (ball : BallStruct K) : BallStruct K :=
  if ball.position.x ≥ (bounds.x : K) - BALL_RADIUS * 0.5 then
    if ball.velocity.x > 0 then
      { ball with
        velocity := ⟨ball.velocity.x * (-VELO_DAMPIN * VELO_DAMPIN), ball.velocity.y⟩
        position := ⟨(bounds.x : K) - BALL_RADIUS * 0.5, ball.position.y⟩ }
    else ball
  else ball

/-- Lines 76-99: the four edge rules in program order. -/
def confine (bounds : IVec2) (ball : BallStruct K) : BallStruct K :=
  rightEdge bounds (leftEdge (topEdge (bottomEdge bounds ball)))

/-- Lines 68-100: the body of the first loop of `Update`. -/
def updateBall (forces : List (BallForce K)) (bounds : IVec2) (ball : BallStruct K) :
    BallStruct K :=
  confine bounds (integrate forces ball)

/-! ## `BallEngine::Update`, second loop: collision detection and response -/

/-- Lines 105-135: the body of the inner collision loop for `ballA = balls[i]`
and `ballB = balls[j]`.  The normal is computed as soon as the bodies are
closer than `2 * BALL_RADIUS`; it is consumed only by the three branches
with a body that is not dragged, so NaN reaches the state (`none`) only
there. -/
def resolvePair (sqrt : K → K) (ballA ballB : BallStruct K) :
    Option (BallStruct K × BallStruct K) :=
  let displacement := ballB.position.sub ballA.position
  let distance := glmLength sqrt displacement
  let minDistance : K := 2 * BALL_RADIUS
  if distance < minDistance then
    let collisionNormal := glmNormalize sqrt displacement
    let overlap := minDistance - distance
    if ballA.isBeingDragged && !ballB.isBeingDragged then
      collisionNormal.map fun n =>
        (ballA,
         { ballB with
           position := ballB.position.add (n.scale overlap)
           velocity := glmReflect ballB.velocity n })
    else if ballB.isBeingDragged && !ballA.isBeingDragged then
      collisionNormal.map fun n =>
        ({ ballA with
           position := ballA.position.sub (n.scale overlap)
           velocity := glmReflect ballA.velocity n },
         ballB)
    else if !ballA.isBeingDragged && !ballB.isBeingDragged then
      collisionNormal.map fun n =>
        ({ ballA with
           position := ballA.position.sub ((n.scale overlap).scale 0.5)
           velocity := glmReflect ballA.velocity n },
         { ballB with
           position := ballB.position.add ((n.scale overlap).scale 0.5)
           velocity := glmReflect ballB.velocity n })
    else some (ballA, ballB)
  else some (ballA, ballB)

/-- One iteration of the inner loop on the stored bodies: read `balls[i]` and
`balls[j]`, resolve, write both back. -/
def collideAt (sqrt : K → K) (balls : List (BallStruct K)) (ij : Nat × Nat) :
    Option (List (BallStruct K)) :=
  match balls[ij.1]?, balls[ij.2]? with
  | some ballA, some ballB =>
    (resolvePair sqrt ballA ballB).map fun r => (balls.set ij.1 r.1).set ij.2 r.2
  | _, _ => some balls

/-- Index pairs visited by lines 103-104, in order: `i` from `0`, and for each
`i` every `j` from `i + 1`, both below `n`. -/
def pairIndices (n : Nat) : List (Nat × Nat) :=
  (List.range n).flatMap fun i => (List.range' (i + 1) (n - (i + 1))).map fun j => (i, j)

/-- Lines 103-137: the collision loops. -/
def collisionPass (sqrt : K → K) (balls : List (BallStruct K)) :
    Option (List (BallStruct K)) :=
  (pairIndices balls.length).foldlM (collideAt sqrt) balls

/-- Lines 68-100: the first loop of `Update` over all bodies. -/
def integrationPass (engine : BallEngine K) : List (BallStruct K) :=
  engine.balls.map (updateBall engine.forces engine.settings.bounds)

/-- Lines 66-138: one tick, `BallEngine::Update`. -/
def Update (sqrt : K → K) (engine : BallEngine K) : Option (BallEngine K) :=
  (collisionPass sqrt (integrationPass engine)).map fun balls => { engine with balls := balls }

/-- Lines 47-53: the constructor `BallEngine::BallEngine(bounds)`.  The
velocity of a new body is the default-constructed `glm::vec2`, zero, and
`isBeingDragged` has its default `false`. -/
def BallEngine.new (bounds : IVec2) : BallEngine K :=
  { settings := { bounds := bounds }
    balls := [⟨⟨(bounds.x : K) * 0.25, (bounds.y : K) * 0.5⟩, ⟨0, 0⟩, false⟩,
              ⟨⟨(bounds.x : K) * 0.75, (bounds.y : K) * 0.5⟩, ⟨0, 0⟩, false⟩]
    forces := [⟨"Gravity", ⟨0, 0.5⟩⟩, ⟨"Wind", ⟨0, 0⟩⟩] }

/-- Line 116 when the distance is not zero: the unit vector from `a` to `b`,
the displacement divided by its length. -/
def collisionNormal (sqrt : K → K) (a b : Vec2 K) : Vec2 K :=
  (b.sub a).scale (1 / glmDistance sqrt a b)

/-- Line 117: `overlap = minDistance - distance`. -/
def overlap (sqrt : K → K) (a b : Vec2 K) : K := 2 * BALL_RADIUS - glmDistance sqrt a b

/-- Sum of the force vectors, accumulated in the order of lines 71-73 from the
zero vector. -/
def forceSum (forces : List (BallForce K)) : Vec2 K :=
  forces.foldl (fun v force => v.add force.velocity) ⟨0, 0⟩

/-! ## `BasicApp`: the pointer handlers -/

/-- The members of `class BasicApp` the handlers use (lines 156-157).  The
pointer `currentBall` is the index of the body it points to in
`engine.balls` (bodies are never added or removed after construction);
`nullptr` is `none`. -/
structure BasicApp (K : Type) where
  engine : BallEngine K
  currentBall : Option Nat

/-- Lines 186-197: the loop of `mouseDown` over the bodies that remain, the
first of them having index `idx`.  The first body closer to the pointer than
`BALL_RADIUS` gets `isBeingDragged = true` and the loop ends (`break`) with its
index; `none` when the loop runs to the end. -/
def mouseDownScan (sqrt : K → K) (mouse : Vec2 K) (idx : Nat) :
    List (BallStruct K) → Option (List (BallStruct K) × Nat)
  | [] => none
  | ball :: rest =>
    if glmDistance sqrt ball.position mouse < BALL_RADIUS then
      some ({ ball with isBeingDragged := true } :: rest, idx)
    else
      (mouseDownScan sqrt mouse (idx + 1) rest).map fun r => (ball :: r.1, r.2)

/-- Lines 185-198: `BasicApp::mouseDown`; `pos` is `event.getPos()`, an integer
point converted to `glm::vec2`. -/
def mouseDown (sqrt : K → K) (app : BasicApp K) (pos : IVec2) : BasicApp K :=
  match mouseDownScan sqrt ⟨(pos.x : K), (pos.y : K)⟩ 0 app.engine.balls with
  | some (balls, idx) =>
    { engine := { app.engine with balls := balls }, currentBall := some idx }
  | none => app

/-- Lines 200-206: `BasicApp::mouseUp`. -/
def mouseUp (app : BasicApp K) : BasicApp K :=
  match app.currentBall with
  | some i =>
    match app.engine.balls[i]? with
    | some ball =>
      if ball.isBeingDragged then
        { engine :=
            { app.engine with
              balls := app.engine.balls.set i { ball with isBeingDragged := false } }
          currentBall := none }
      else app
    | none => app
  | none => app

/-- Lines 208-235: `BasicApp::mouseDrag`; `pos` is `event.getPos()`. -/
def mouseDrag (app : BasicApp K) (pos : IVec2) : BasicApp K :=
  match app.currentBall with
  | some i =>
    match app.engine.balls[i]? with
    | some ball =>
      let appBounds : Vec2 K :=
        ⟨(app.engine.settings.bounds.x : K), (app.engine.settings.bounds.y : K)⟩
      let mouseX : K :=
        if (pos.x : K) < 0 then 0
        else if (pos.x : K) > appBounds.x then appBounds.x
        else (pos.x : K)
      let mouseY : K :=
        if (pos.y : K) < 0 then 0
        else if (pos.y : K) > appBounds.y then appBounds.y
        else (pos.y : K)
      { app with
        engine :=
          { app.engine with
            balls := app.engine.balls.set i
              { ball with velocity := ⟨0, 0⟩, position := ⟨mouseX, mouseY⟩ } } }
    | none => app
  | none => app

/-- Lines 260-263: `BasicApp::setup` creates the engine for the window size;
`currentBall` starts as `nullptr`. -/
def setup (size : IVec2) : BasicApp K :=
  { engine := BallEngine.new size, currentBall := none }

/-! ## The collision loops with NaN tracked per body

`resolvePair` and `Update` answer `none` as soon as one body receives NaN.
The program goes on: the NaN stays in the bodies it was written to, and every
later comparison `distance < minDistance` that involves such a body is false.
The definitions below follow the same lines of the source and keep each body
apart: `none` in the list is a body whose position and velocity are NaN. -/

/-- Lines 105-135 for `ballA = balls[i]` and `ballB = balls[j]`, the outcome of
each body on its own: `none` for a body into which the NaN normal is
written. -/
def resolvePairTracked (sqrt : K → K) (ballA ballB : BallStruct K) :
    Option (BallStruct K) × Option (BallStruct K) :=
  let displacement := ballB.position.sub ballA.position
  let distance := glmLength sqrt displacement
  let minDistance : K := 2 * BALL_RADIUS
  if distance < minDistance then
    let collisionNormal := glmNormalize sqrt displacement
    let overlap := minDistance - distance
    if ballA.isBeingDragged && !ballB.isBeingDragged then
      (some ballA,
       collisionNormal.map fun n =>
         { ballB with
           position := ballB.position.add (n.scale overlap)
           velocity := glmReflect ballB.velocity n })
    else if ballB.isBeingDragged && !ballA.isBeingDragged then
      (collisionNormal.map fun n =>
         { ballA with
           position := ballA.position.sub (n.scale overlap)
           velocity := glmReflect ballA.velocity n },
       some ballB)
    else if !ballA.isBeingDragged && !ballB.isBeingDragged then
      (collisionNormal.map fun n =>
         { ballA with
           position := ballA.position.sub ((n.scale overlap).scale 0.5)
           velocity := glmReflect ballA.velocity n },
       collisionNormal.map fun n =>
         { ballB with
           position := ballB.position.add ((n.scale overlap).scale 0.5)
           velocity := glmReflect ballB.velocity n })
    else (some ballA, some ballB)
  else (some ballA, some ballB)

/-- One iteration of the inner loop with NaN tracked per body.  When either
body is NaN the distance is NaN, the test of line 114 is false and nothing is
written. -/
def collideAtTracked (sqrt : K → K) (balls : List (Option (BallStruct K)))
    (ij : Nat × Nat) : List (Option (BallStruct K)) :=
  match balls[ij.1]?, balls[ij.2]? with
  | some (some ballA), some (some ballB) =>
    ((balls.set ij.1 (resolvePairTracked sqrt ballA ballB).1).set ij.2
      (resolvePairTracked sqrt ballA ballB).2)
  | _, _ => balls

/-- Lines 103-137 with NaN tracked per body. -/
def collisionPassTracked (sqrt : K → K) (balls : List (Option (BallStruct K))) :
    List (Option (BallStruct K)) :=
  (pairIndices balls.length).foldl (collideAtTracked sqrt) balls

/-- Lines 66-138 with NaN tracked per body: the bodies after one tick of a
world that holds no NaN before it. -/
def UpdateTracked (sqrt : K → K) (engine : BallEngine K) : List (Option (BallStruct K)) :=
  collisionPassTracked sqrt ((integrationPass engine).map some)

/-- What the theorems need of the square root: on non-negative arguments it
returns the non-negative root. -/
def IsSqrt (sqrt : K → K) : Prop := ∀ x : K, 0 ≤ x → 0 ≤ sqrt x ∧ sqrt x * sqrt x = x

end Defs

/-! ## Binary32 arithmetic

The program computes in `float`.  The definitions below give every operation
it uses its IEEE 754 binary32 meaning: the exact result, rounded to the
nearest binary32 value, ties to even, with overflow to an infinity, gradual
underflow and NaN.  The two zeros are identified: no operation of the program
tells them apart (the only division is by a square root). -/

/-- A binary32 value: a finite number given by its exact value, an infinity,
or NaN. -/
inductive F32 where
  | fin (q : ℚ)
  | inf (negative : Bool)
  | nan
deriving DecidableEq

namespace F32

/-- Number of binary digits of `n`; the first argument bounds the recursion. -/
def bitLength : ℕ → ℕ → ℕ
  | 0, _ => 0
  | fuel + 1, n => if n = 0 then 0 else bitLength fuel (n / 2) + 1

/-- The power `2 ^ e` for an integer exponent. -/
def pow2 (e : Int) : ℚ :=
  if 0 ≤ e then ((2 ^ e.toNat : ℕ) : ℚ) else 1 / ((2 ^ (-e).toNat : ℕ) : ℚ)

/-- The integer `e` with `2 ^ e ≤ a < 2 ^ (e + 1)`, for positive `a`. -/
def exponent (a : ℚ) : Int :=
  let e0 : Int :=
    (bitLength a.num.natAbs a.num.natAbs : Int) - (bitLength a.den a.den : Int)
  if pow2 e0 ≤ a then e0 else e0 - 1

/-- Nearest integer, ties to the even one. -/
def roundHalfEven (m : ℚ) : Int :=
  let f : Int := ⌊m⌋
  let r : ℚ := m - f
  if r < 1 / 2 then f else if 1 / 2 < r then f + 1 else if f % 2 = 0 then f else f + 1

/-- Rounding of an exact result to binary32: 24 significant bits, least
exponent `-126` (below it the spacing stays `2 ^ -149`), and an infinity when
the rounded magnitude reaches `2 ^ 128`. -/
def round (q : ℚ) : F32 :=
  if q = 0 then fin 0 else
    let e : Int := max (exponent |q|) (-126)
    let quantum : ℚ := pow2 (e - 23)
    let r : ℚ := (roundHalfEven (|q| / quantum) : ℚ) * quantum
    if pow2 128 ≤ r then inf (decide (q < 0)) else fin (if q < 0 then -r else r)

/-- Newton iteration for the integer square root, from a guess that is not
below it; the first argument bounds the recursion. -/
def isqrtLoop (n : ℕ) : ℕ → ℕ → ℕ
  | 0, guess => guess
  | fuel + 1, guess =>
    let next := (guess + n / guess) / 2
    if next < guess then isqrtLoop n fuel next else guess

/-- The integer square root `⌊√n⌋`. -/
def isqrt (n : ℕ) : ℕ :=
  if n = 0 then 0 else isqrtLoop n n (2 ^ (bitLength n n / 2 + 1))

/-- Unary minus. -/
def neg : F32 → F32
  | fin q => fin (-q)
  | inf n => inf (!n)
  | nan => nan

/-- Addition. -/
def add : F32 → F32 → F32
  | fin a, fin b => round (a + b)
  | fin _, inf n => inf n
  | inf n, fin _ => inf n
  | inf n, inf m => if n = m then inf n else nan
  | _, _ => nan

/-- Subtraction. -/
def sub (a b : F32) : F32 := add a (neg b)

/-- Multiplication. -/
def mul : F32 → F32 → F32
  | fin a, fin b => round (a * b)
  | fin a, inf n => if a = 0 then nan else inf (xor n (decide (a < 0)))
  | inf n, fin b => if b = 0 then nan else inf (xor n (decide (b < 0)))
  | inf n, inf m => inf (xor n m)
  | _, _ => nan

/-- Division. -/
def div : F32 → F32 → F32
  | fin a, fin b =>
    if b = 0 then (if a = 0 then nan else inf (decide (a < 0))) else round (a / b)
  | fin _, inf _ => fin 0
  | inf n, fin b => inf (xor n (decide (b < 0)))
  | _, _ => nan

/-- Square root, correctly rounded.  The root is bracketed on the grid of
spacing `2 ^ -200`, far finer than the spacing of binary32 values and of
their midpoints in the range of roots of binary32 values; an inexact root is
replaced by the midpoint of its grid cell, which rounds as the root does. -/
def sqrt : F32 → F32
  | fin x =>
    if x < 0 then nan else
      let n : ℕ := (x * pow2 400).num.natAbs / (x * pow2 400).den
      let t : ℕ := isqrt n
      if ((t * t : ℕ) : ℚ) = x * pow2 400 then round ((t : ℚ) / pow2 200)
      else round (((2 * t + 1 : ℕ) : ℚ) / pow2 201)
  | inf false => inf false
  | inf true => nan
  | nan => nan

/-- The comparison `a < b`, false when either side is NaN. -/
def lt : F32 → F32 → Bool
  | fin a, fin b => decide (a < b)
  | fin _, inf m => !m
  | inf n, fin _ => n
  | inf n, inf m => n && !m
  | _, _ => false

/-- The comparison `a <= b`, false when either side is NaN. -/
def le : F32 → F32 → Bool
  | fin a, fin b => decide (a ≤ b)
  | fin _, inf m => !m
  | inf n, fin _ => n
  | inf n, inf m => n || !m
  | _, _ => false

/-- The comparison `a > b`. -/
def gt (a b : F32) : Bool := lt b a

/-- The comparison `a >= b`. -/
def ge (a b : F32) : Bool := le b a

/-- Conversion of an `int` to `float`. -/
def ofInt (i : Int) : F32 := round (i : ℚ)

end F32

/-! ## The program in binary32

The same lines of `src/BasicApp.cpp` as above, with every arithmetic
operation and comparison of the source given its binary32 meaning.  NaN and
the infinities are values of `F32`, so nothing is optional here. -/

namespace Binary32

/-- Constant `#define BALL_RADIUS 32.f`. -/
def BALL_RADIUS : F32 := F32.fin 32

/-- Constant `#define VELO_DAMPIN 0.45f`: the binary32 value nearest to
`0.45`, which is `7549747 / 2 ^ 24`. -/
def VELO_DAMPIN : F32 := F32.fin (7549747 / 16777216)

/-- Componentwise sum, `operator+` on `glm::vec2`. -/
def vadd (a b : Vec2 F32) : Vec2 F32 := ⟨F32.add a.x b.x, F32.add a.y b.y⟩

/-- Componentwise difference, `operator-` on `glm::vec2`. -/
def vsub (a b : Vec2 F32) : Vec2 F32 := ⟨F32.sub a.x b.x, F32.sub a.y b.y⟩

/-- Vector times scalar, `operator*` on `glm::vec2` and `float`. -/
def vscale (a : Vec2 F32) (s : F32) : Vec2 F32 := ⟨F32.mul a.x s, F32.mul a.y s⟩

/-- Dot product, `glm::dot`: the two products, then their sum. -/
def vdot (a b : Vec2 F32) : F32 := F32.add (F32.mul a.x b.x) (F32.mul a.y b.y)

/-- Euclidean length, `glm::length(v) = sqrt(dot(v, v))`. -/
def glmLength (v : Vec2 F32) : F32 := F32.sqrt (vdot v v)

/-- Inverse square root, `glm::inversesqrt(x) = 1 / sqrt(x)`. -/
def glmInversesqrt (x : F32) : F32 := F32.div (F32.fin 1) (F32.sqrt x)

/-- Unit vector, `glm::normalize(v) = v * inversesqrt(dot(v, v))`. -/
def glmNormalize (v : Vec2 F32) : Vec2 F32 := vscale v (glmInversesqrt (vdot v v))

/-- Mirror image, `glm::reflect(I, N) = I - N * dot(N, I) * 2`. -/
def glmReflect (I N : Vec2 F32) : Vec2 F32 :=
  vsub I (vscale (vscale N (vdot N I)) (F32.fin 2))

/-- Distance of two points, `glm::distance(p0, p1) = length(p1 - p0)`. -/
def glmDistance (p0 p1 : Vec2 F32) : F32 := glmLength (vsub p1 p0)

/-- Lines 70-75 in binary32. -/
def integrate (forces : List (BallForce F32)) (ball : BallStruct F32) : BallStruct F32 :=
  if !ball.isBeingDragged then
    let velocity := forces.foldl (fun v force => vadd v force.velocity) ball.velocity
    { ball with velocity := velocity, position := vadd ball.position velocity }
  else ball

/-- Lines 76-81 in binary32: the bottom edge. -/
def bottomEdge (bounds : IVec2) (ball : BallStruct F32) : BallStruct F32 :=
  if F32.ge ball.position.y
      (F32.sub (F32.ofInt bounds.y) (F32.mul BALL_RADIUS (F32.fin (1 / 2)))) then
    if F32.gt ball.velocity.y (F32.fin 0) then
      { ball with
        velocity := ⟨ball.velocity.x, F32.mul ball.velocity.y (F32.neg VELO_DAMPIN)⟩
        position := ⟨ball.position.x,
          F32.sub (F32.ofInt bounds.y) (F32.mul BALL_RADIUS (F32.fin (1 / 2)))⟩ }
    else ball
  else ball

/-- Lines 82-87 in binary32: the top edge. -/
def topEdge (ball : BallStruct F32) : BallStruct F32 :=
  if F32.le ball.position.y (F32.mul BALL_RADIUS (F32.fin (1 / 2))) then
    if F32.lt ball.velocity.y (F32.fin 0) then
      { ball with
        velocity := ⟨ball.velocity.x, F32.fin 0⟩
        position := ⟨ball.position.x, F32.mul BALL_RADIUS (F32.fin (1 / 2))⟩ }
    else ball
  else ball

/-- Lines 88-93 in binary32: the left edge. -/
def leftEdge (ball : BallStruct F32) : BallStruct F32 :=
  if F32.le ball.position.x (F32.mul BALL_RADIUS (F32.fin (1 / 2))) then
    if F32.lt ball.velocity.x (F32.fin 0) then
      { ball with
        velocity :=
          ⟨F32.mul ball.velocity.x (F32.mul (F32.neg VELO_DAMPIN) VELO_DAMPIN),
           ball.velocity.y⟩
        position := ⟨F32.mul BALL_RADIUS (F32.fin (1 / 2)), ball.position.y⟩ }
    else ball
  else ball

/-- Lines 94-99 in binary32: the right edge. -/
def rightEdge (bounds : IVec2) (ball : BallStruct F32) : BallStruct F32 :=
  if F32.ge ball.position.x
      (F32.sub (F32.ofInt bounds.x) (F32.mul BALL_RADIUS (F32.fin (1 / 2)))) then
    if F32.gt ball.velocity.x (F32.fin 0) then
      { ball with
        velocity :=
          ⟨F32.mul ball.velocity.x (F32.mul (F32.neg VELO_DAMPIN) VELO_DAMPIN),
           ball.velocity.y⟩
        position :=
          ⟨F32.sub (F32.ofInt bounds.x) (F32.mul BALL_RADIUS (F32.fin (1 / 2))),
           ball.position.y⟩ }
    else ball
  else ball

/-- Lines 76-99 in binary32: the four edge rules in program order. -/
def confine (bounds : IVec2) (ball : BallStruct F32) : BallStruct F32 :=
  rightEdge bounds (leftEdge (topEdge (bottomEdge bounds ball)))

/-- Lines 68-100 in binary32: the body of the first loop of `Update`. -/
def updateBall (forces : List (BallForce F32)) (bounds : IVec2) (ball : BallStruct F32) :
    BallStruct F32 :=
  confine bounds (integrate forces ball)

/-- Lines 105-135 in binary32, for `ballA = balls[i]` and `ballB = balls[j]`. -/
def resolvePair (ballA ballB : BallStruct F32) : BallStruct F32 × BallStruct F32 :=
  let displacement := vsub ballB.position ballA.position
  let distance := glmLength displacement
  let minDistance : F32 := F32.mul (F32.ofInt 2) BALL_RADIUS
  if F32.lt distance minDistance then
    let collisionNormal := glmNormalize displacement
    let overlap := F32.sub minDistance distance
    if ballA.isBeingDragged && !ballB.isBeingDragged then
      (ballA,
       { ballB with
         position := vadd ballB.position (vscale collisionNormal overlap)
         velocity := glmReflect ballB.velocity collisionNormal })
    else if ballB.isBeingDragged && !ballA.isBeingDragged then
      ({ ballA with
         position := vsub ballA.position (vscale collisionNormal overlap)
         velocity := glmReflect ballA.velocity collisionNormal },
       ballB)
    else if !ballA.isBeingDragged && !ballB.isBeingDragged then
      ({ ballA with
         position := vsub ballA.position
           (vscale (vscale collisionNormal overlap) (F32.fin (1 / 2)))
         velocity := glmReflect ballA.velocity collisionNormal },
       { ballB with
         position := vadd ballB.position
           (vscale (vscale collisionNormal overlap) (F32.fin (1 / 2)))
         velocity := glmReflect ballB.velocity collisionNormal })
    else (ballA, ballB)
  else (ballA, ballB)

/-- One iteration of the inner loop on the stored bodies, in binary32. -/
def collideAt (balls : List (BallStruct F32)) (ij : Nat × Nat) : List (BallStruct F32) :=
  match balls[ij.1]?, balls[ij.2]? with
  | some ballA, some ballB =>
    (balls.set ij.1 (resolvePair ballA ballB).1).set ij.2 (resolvePair ballA ballB).2
  | _, _ => balls

/-- Lines 103-137 in binary32: the collision loops. -/
def collisionPass (balls : List (BallStruct F32)) : List (BallStruct F32) :=
  (pairIndices balls.length).foldl collideAt balls

/-- Lines 68-100 in binary32: the first loop of `Update` over all bodies. -/
def integrationPass (engine : BallEngine F32) : List (BallStruct F32) :=
  engine.balls.map (updateBall engine.forces engine.settings.bounds)

/-- Lines 66-138 in binary32: one tick, `BallEngine::Update`. -/
def Update (engine : BallEngine F32) : BallEngine F32 :=
  { engine with balls := collisionPass (integrationPass engine) }

/-- Lines 186-197 in binary32: the loop of `mouseDown` over the bodies that
remain, the first of them having index `idx`. -/
def mouseDownScan (mouse : Vec2 F32) (idx : Nat) :
    List (BallStruct F32) → Option (List (BallStruct F32) × Nat)
  | [] => none
  | ball :: rest =>
    if F32.lt (glmDistance ball.position mouse) BALL_RADIUS then
      some ({ ball with isBeingDragged := true } :: rest, idx)
    else
      (mouseDownScan mouse (idx + 1) rest).map fun r => (ball :: r.1, r.2)

/-- Lines 185-198 in binary32: `BasicApp::mouseDown`; `pos` is
`event.getPos()`, an integer point converted to `glm::vec2`. -/
def mouseDown (app : BasicApp F32) (pos : IVec2) : BasicApp F32 :=
  match mouseDownScan ⟨F32.ofInt pos.x, F32.ofInt pos.y⟩ 0 app.engine.balls with
  | some (balls, idx) =>
    { engine := { app.engine with balls := balls }, currentBall := some idx }
  | none => app

/-! ### The quantities of the collision response, operation by operation

The statements below name the distance, normal, overlap and mirror image that
the program computes.  They are spelled out here in single binary32
operations, in the order in which glm and the source perform them. -/

/-- The distance of the centres `a` and `b` as line 109-110 computes it. -/
def computedDistance (a b : Vec2 F32) : F32 :=
  F32.sqrt (F32.add
    (F32.mul (F32.sub b.x a.x) (F32.sub b.x a.x))
    (F32.mul (F32.sub b.y a.y) (F32.sub b.y a.y)))

/-- The collision normal from `a` to `b` as line 116 computes it: the
displacement times the inverse square root of its dot product with itself. -/
def computedNormal (a b : Vec2 F32) : Vec2 F32 :=
  ⟨F32.mul (F32.sub b.x a.x)
      (F32.div (F32.fin 1) (F32.sqrt (F32.add
        (F32.mul (F32.sub b.x a.x) (F32.sub b.x a.x))
        (F32.mul (F32.sub b.y a.y) (F32.sub b.y a.y))))),
   F32.mul (F32.sub b.y a.y)
      (F32.div (F32.fin 1) (F32.sqrt (F32.add
        (F32.mul (F32.sub b.x a.x) (F32.sub b.x a.x))
        (F32.mul (F32.sub b.y a.y) (F32.sub b.y a.y)))))⟩

/-- The mirror image of `v` about `n` as `glm::reflect` computes it:
`v - n * dot(n, v) * 2`, component by component. -/
def computedMirror (v n : Vec2 F32) : Vec2 F32 :=
  ⟨F32.sub v.x
      (F32.mul (F32.mul n.x (F32.add (F32.mul n.x v.x) (F32.mul n.y v.y))) (F32.fin 2)),
   F32.sub v.y
      (F32.mul (F32.mul n.y (F32.add (F32.mul n.x v.x) (F32.mul n.y v.y))) (F32.fin 2))⟩

/-- The velocity after lines 70-73: the force vectors added to `v` one after
another in stored order, component by component. -/
def computedVelocity (forces : List (BallForce F32)) (v : Vec2 F32) : Vec2 F32 :=
  forces.foldl
    (fun w force => ⟨F32.add w.x force.velocity.x, F32.add w.y force.velocity.y⟩) v

/-- The position after line 74: the position plus the velocity that lines
70-73 have just stored. -/
def computedPosition (forces : List (BallForce F32)) (p v : Vec2 F32) : Vec2 F32 :=
  ⟨F32.add p.x (computedVelocity forces v).x, F32.add p.y (computedVelocity forces v).y⟩

/-- Lines 47-53 in binary32: the constructor `BallEngine::BallEngine(bounds)`;
each bound is converted to `float` and multiplied by `.25f`, `.75f` or
`.5f`. -/
def BallEngine_new (bounds : IVec2) : BallEngine F32 :=
  { settings := { bounds := bounds }
    balls :=
      [⟨⟨F32.mul (F32.ofInt bounds.x) (F32.fin (1 / 4)),
          F32.mul (F32.ofInt bounds.y) (F32.fin (1 / 2))⟩, ⟨F32.fin 0, F32.fin 0⟩, false⟩,
       ⟨⟨F32.mul (F32.ofInt bounds.x) (F32.fin (3 / 4)),
          F32.mul (F32.ofInt bounds.y) (F32.fin (1 / 2))⟩, ⟨F32.fin 0, F32.fin 0⟩, false⟩]
    forces := [⟨"Gravity", ⟨F32.fin 0, F32.fin (1 / 2)⟩⟩, ⟨"Wind", ⟨F32.fin 0, F32.fin 0⟩⟩] }

end Binary32

deriving instance DecidableEq for Vec2, BallStruct

/-! ## Auxiliary lemmas -/

section Lemmas

variable {K : Type} [LinearOrderedField K]

lemma mem_pairIndices (n i j : Nat) : (i, j) ∈ pairIndices n ↔ i < j ∧ j < n := by
  simp only [pairIndices, List.mem_flatMap, List.mem_range, List.mem_map, List.mem_range',
    Prod.mk.injEq]
  constructor
  · rintro ⟨a, ha, b, ⟨k, hk, rfl⟩, rfl, rfl⟩
    omega
  · rintro ⟨hij, hj⟩
    exact ⟨i, by omega, j, ⟨j - (i + 1), by omega, by omega⟩, rfl, rfl⟩

lemma set_getElem_same {α : Type} (l : List α) (i : Nat) (hi : i < l.length) :
    l.set i l[i] = l := by
  apply List.ext_getElem?
  intro n
  rw [List.getElem?_set]
  split_ifs with h1
  · subst h1
    exact (List.getElem?_eq_getElem hi).symm
  · rfl

lemma resolvePair_far (sqrt : K → K) (ballA ballB : BallStruct K)
    (h : 2 * BALL_RADIUS ≤ glmDistance sqrt ballA.position ballB.position) :
    resolvePair sqrt ballA ballB = some (ballA, ballB) := by
  unfold resolvePair
  simp only [glmDistance] at h
  simp [not_lt.mpr h]

lemma collideAt_far (sqrt : K → K) (balls : List (BallStruct K)) (i j : Nat)
    (h : ∀ (hi : i < balls.length) (hj : j < balls.length),
      2 * BALL_RADIUS ≤ glmDistance sqrt balls[i].position balls[j].position) :
    collideAt sqrt balls (i, j) = some balls := by
  unfold collideAt
  by_cases hi : i < balls.length
  · by_cases hj : j < balls.length
    · simp [List.getElem?_eq_getElem hi, List.getElem?_eq_getElem hj,
        resolvePair_far sqrt _ _ (h hi hj), set_getElem_same]
    · simp [List.getElem?_eq_none (not_lt.mp hj)]
  · simp [List.getElem?_eq_none (not_lt.mp hi)]

lemma foldlM_fixed {α β : Type} (f : α → β → Option α) (a : α) :
    ∀ l : List β, (∀ p ∈ l, f a p = some a) → l.foldlM f a = some a
  | [], _ => rfl
  | p :: l, h => by
    rw [List.foldlM_cons, h p (List.mem_cons_self _ _)]
    exact foldlM_fixed f a l fun q hq => h q (List.mem_cons_of_mem _ hq)

/-- When every pair the loops visit is at least `2 * BALL_RADIUS` apart, the
collision loops change nothing. -/
lemma collisionPass_far (sqrt : K → K) (balls : List (BallStruct K))
    (h : ∀ (i j : Nat) (hi : i < balls.length) (hj : j < balls.length), i < j →
      2 * BALL_RADIUS ≤ glmDistance sqrt balls[i].position balls[j].position) :
    collisionPass sqrt balls = some balls := by
  unfold collisionPass
  apply foldlM_fixed
  rintro ⟨i, j⟩ hp
  have hij := (mem_pairIndices _ _ _).mp hp
  exact collideAt_far sqrt balls i j fun hi hj => h i j hi hj hij.1

/-! ### Square root and normal -/

lemma dot_self_nonneg (v : Vec2 K) : 0 ≤ v.dot v := by
  unfold Vec2.dot
  nlinarith [mul_self_nonneg v.x, mul_self_nonneg v.y]

lemma IsSqrt.sqrt_mul_self {sqrt : K → K} (hs : IsSqrt sqrt) {a : K} (ha : 0 ≤ a) :
    sqrt (a * a) = a := by
  obtain ⟨h0, h1⟩ := hs (a * a) (mul_self_nonneg a)
  exact (mul_self_inj h0 ha).mp h1

lemma glmLength_mul_self {sqrt : K → K} (hs : IsSqrt sqrt) (v : Vec2 K) :
    glmLength sqrt v * glmLength sqrt v = v.dot v :=
  (hs _ (dot_self_nonneg v)).2

lemma glmLength_nonneg {sqrt : K → K} (hs : IsSqrt sqrt) (v : Vec2 K) :
    0 ≤ glmLength sqrt v :=
  (hs _ (dot_self_nonneg v)).1

lemma glmNormalize_of_pos (sqrt : K → K) (v : Vec2 K) (h : 0 < glmLength sqrt v) :
    glmNormalize sqrt v = some (v.scale (1 / glmLength sqrt v)) := by
  unfold glmNormalize
  rw [if_neg]
  · rfl
  · exact ne_of_gt h

lemma glmNormalize_of_zero (sqrt : K → K) (v : Vec2 K) (h : glmLength sqrt v = 0) :
    glmNormalize sqrt v = none := by
  unfold glmNormalize
  rw [if_pos]
  exact h

/-- The normal of a displacement of positive length has unit length. -/
lemma normal_dot_self {sqrt : K → K} (hs : IsSqrt sqrt) (v : Vec2 K)
    (h : 0 < glmLength sqrt v) :
    (v.scale (1 / glmLength sqrt v)).dot (v.scale (1 / glmLength sqrt v)) = 1 := by
  have h2 := glmLength_mul_self hs v
  have hne : glmLength sqrt v ≠ 0 := ne_of_gt h
  simp only [Vec2.dot, Vec2.scale] at h2 ⊢
  field_simp
  linarith

/-- The displacement is its length times its normal. -/
lemma scale_normal_length (sqrt : K → K) (v : Vec2 K) (h : 0 < glmLength sqrt v) :
    (v.scale (1 / glmLength sqrt v)).scale (glmLength sqrt v) = v := by
  have hne : glmLength sqrt v ≠ 0 := ne_of_gt h
  ext <;> simp only [Vec2.scale] <;> field_simp

/-- A vector of unit length scaled by a non-negative factor has that factor as
its length. -/
lemma glmLength_scale_unit {sqrt : K → K} (hs : IsSqrt sqrt) (n : Vec2 K) (c : K)
    (hn : n.dot n = 1) (hc : 0 ≤ c) : glmLength sqrt (n.scale c) = c := by
  have : (n.scale c).dot (n.scale c) = c * c := by
    simp only [Vec2.dot, Vec2.scale] at hn ⊢
    linear_combination (c * c) * hn
  rw [glmLength, this, hs.sqrt_mul_self hc]

lemma real_isSqrt : IsSqrt Real.sqrt := fun x hx =>
  ⟨Real.sqrt_nonneg x, Real.mul_self_sqrt hx⟩

/-- Distance of two points on a horizontal line. -/
lemma glmDistance_horizontal {sqrt : K → K} (hs : IsSqrt sqrt) (a b : Vec2 K)
    (hy : a.y = b.y) (hx : a.x ≤ b.x) : glmDistance sqrt a b = b.x - a.x := by
  have : (b.sub a).dot (b.sub a) = (b.x - a.x) * (b.x - a.x) := by
    simp only [Vec2.dot, Vec2.sub, hy]
    ring
  rw [glmDistance, glmLength, this, hs.sqrt_mul_self (sub_nonneg.mpr hx)]

lemma glmDistance_mk_horizontal {sqrt : K → K} (hs : IsSqrt sqrt) (ax bx y : K)
    (hx : ax ≤ bx) : glmDistance sqrt ⟨ax, y⟩ ⟨bx, y⟩ = bx - ax :=
  glmDistance_horizontal hs ⟨ax, y⟩ ⟨bx, y⟩ rfl hx

/-! ### The branches of `resolvePair` -/

lemma resolvePair_free_free (sqrt : K → K) (ballA ballB : BallStruct K)
    (hA : ballA.isBeingDragged = false) (hB : ballB.isBeingDragged = false)
    (hpos : 0 < glmDistance sqrt ballA.position ballB.position)
    (hlt : glmDistance sqrt ballA.position ballB.position < 2 * BALL_RADIUS) :
    resolvePair sqrt ballA ballB = some
      ({ ballA with
         position := ballA.position.sub
           (((collisionNormal sqrt ballA.position ballB.position).scale
             (overlap sqrt ballA.position ballB.position)).scale 0.5)
         velocity := glmReflect ballA.velocity
           (collisionNormal sqrt ballA.position ballB.position) },
       { ballB with
         position := ballB.position.add
           (((collisionNormal sqrt ballA.position ballB.position).scale
             (overlap sqrt ballA.position ballB.position)).scale 0.5)
         velocity := glmReflect ballB.velocity
           (collisionNormal sqrt ballA.position ballB.position) }) := by
  unfold resolvePair
  simp only [glmDistance] at hpos hlt
  simp [hA, hB, hlt, glmNormalize_of_pos sqrt _ hpos, collisionNormal, overlap, glmDistance]

lemma resolvePair_held_free (sqrt : K → K) (ballA ballB : BallStruct K)
    (hA : ballA.isBeingDragged = true) (hB : ballB.isBeingDragged = false)
    (hpos : 0 < glmDistance sqrt ballA.position ballB.position)
    (hlt : glmDistance sqrt ballA.position ballB.position < 2 * BALL_RADIUS) :
    resolvePair sqrt ballA ballB = some
      (ballA,
       { ballB with
         position := ballB.position.add
           ((collisionNormal sqrt ballA.position ballB.position).scale
             (overlap sqrt ballA.position ballB.position))
         velocity := glmReflect ballB.velocity
           (collisionNormal sqrt ballA.position ballB.position) }) := by
  unfold resolvePair
  simp only [glmDistance] at hpos hlt
  simp [hA, hB, hlt, glmNormalize_of_pos sqrt _ hpos, collisionNormal, overlap, glmDistance]

lemma resolvePair_free_held (sqrt : K → K) (ballA ballB : BallStruct K)
    (hA : ballA.isBeingDragged = false) (hB : ballB.isBeingDragged = true)
    (hpos : 0 < glmDistance sqrt ballA.position ballB.position)
    (hlt : glmDistance sqrt ballA.position ballB.position < 2 * BALL_RADIUS) :
    resolvePair sqrt ballA ballB = some
      ({ ballA with
         position := ballA.position.sub
           ((collisionNormal sqrt ballA.position ballB.position).scale
             (overlap sqrt ballA.position ballB.position))
         velocity := glmReflect ballA.velocity
           (collisionNormal sqrt ballA.position ballB.position) },
       ballB) := by
  unfold resolvePair
  simp only [glmDistance] at hpos hlt
  simp [hA, hB, hlt, glmNormalize_of_pos sqrt _ hpos, collisionNormal, overlap, glmDistance]

lemma resolvePair_held_held (sqrt : K → K) (ballA ballB : BallStruct K)
    (hA : ballA.isBeingDragged = true) (hB : ballB.isBeingDragged = true) :
    resolvePair sqrt ballA ballB = some (ballA, ballB) := by
  unfold resolvePair
  simp [hA, hB]

/-- Coincident centres with a body that is not dragged: the zero displacement
is normalized and its NaN result is written to the state. -/
lemma resolvePair_coincident {sqrt : K → K} (hs : IsSqrt sqrt) (ballA ballB : BallStruct K)
    (hp : ballB.position = ballA.position)
    (hfree : (ballA.isBeingDragged && ballB.isBeingDragged) = false) :
    resolvePair sqrt ballA ballB = none := by
  have hz : glmLength sqrt (ballB.position.sub ballA.position) = 0 := by
    have : (ballB.position.sub ballA.position).dot (ballB.position.sub ballA.position)
        = 0 * 0 := by
      simp [Vec2.dot, Vec2.sub, hp]
    rw [glmLength, this, hs.sqrt_mul_self le_rfl]
  have hn := glmNormalize_of_zero sqrt _ hz
  unfold resolvePair
  have h64 : (0 : K) < 2 * BALL_RADIUS := by norm_num [BALL_RADIUS]
  cases hA : ballA.isBeingDragged <;> cases hB : ballB.isBeingDragged <;>
    simp_all

/-! ### Distance after the bodies are pushed apart -/

lemma Vec2.scale_scale (v : Vec2 K) (a b : K) : (v.scale a).scale b = v.scale (a * b) := by
  ext <;> simp only [Vec2.scale] <;> ring

lemma Vec2.sub_scale_zero (a n : Vec2 K) : a.sub (n.scale 0) = a := by
  ext <;> simp [Vec2.sub, Vec2.scale]

lemma Vec2.add_scale_zero (a n : Vec2 K) : a.add (n.scale 0) = a := by
  ext <;> simp [Vec2.add, Vec2.scale]

lemma collisionNormal_dot_self {sqrt : K → K} (hs : IsSqrt sqrt) (a b : Vec2 K)
    (hpos : 0 < glmDistance sqrt a b) :
    (collisionNormal sqrt a b).dot (collisionNormal sqrt a b) = 1 :=
  normal_dot_self hs (b.sub a) hpos

/-- Pushing `a` back by `c1` and `b` forward by `c2` along the normal, with
`c1 + c2` the overlap, leaves the centres exactly `2 * BALL_RADIUS` apart. -/
lemma glmDistance_pushed {sqrt : K → K} (hs : IsSqrt sqrt) (a b : Vec2 K)
    (hpos : 0 < glmDistance sqrt a b) (c1 c2 : K) (hc : c1 + c2 = overlap sqrt a b) :
    glmDistance sqrt (a.sub ((collisionNormal sqrt a b).scale c1))
      (b.add ((collisionNormal sqrt a b).scale c2)) = 2 * BALL_RADIUS := by
  have hne : glmLength sqrt (b.sub a) ≠ 0 := ne_of_gt hpos
  have heq : (b.add ((collisionNormal sqrt a b).scale c2)).sub
      (a.sub ((collisionNormal sqrt a b).scale c1))
      = (collisionNormal sqrt a b).scale (2 * BALL_RADIUS) := by
    unfold overlap glmDistance at hc
    unfold collisionNormal glmDistance
    generalize glmLength sqrt (b.sub a) = d at hc hne
    have hdx : (b.x - a.x) * (1 / d) * d = b.x - a.x := by field_simp
    have hdy : (b.y - a.y) * (1 / d) * d = b.y - a.y := by field_simp
    ext
    · simp only [Vec2.scale, Vec2.sub, Vec2.add]
      linear_combination (-1) * hdx + ((b.x - a.x) * (1 / d)) * hc
    · simp only [Vec2.scale, Vec2.sub, Vec2.add]
      linear_combination (-1) * hdy + ((b.y - a.y) * (1 / d)) * hc
  rw [glmDistance, heq]
  exact glmLength_scale_unit hs _ _ (collisionNormal_dot_self hs a b hpos)
    (by norm_num [BALL_RADIUS])

/-! ### Reflection -/

lemma glmReflect_eq_mirror (v n : Vec2 K) :
    glmReflect v n = v.sub (n.scale (2 * v.dot n)) := by
  ext <;> simp only [glmReflect, Vec2.sub, Vec2.scale, Vec2.dot] <;> ring

lemma glmReflect_dot_normal (v n : Vec2 K) (hn : n.dot n = 1) :
    (glmReflect v n).dot n = -(v.dot n) := by
  simp only [glmReflect, Vec2.sub, Vec2.scale, Vec2.dot] at hn ⊢
  linear_combination (-2 * (n.x * v.x + n.y * v.y)) * hn

lemma glmReflect_dot_perp (v n t : Vec2 K) (ht : t.dot n = 0) :
    (glmReflect v n).dot t = v.dot t := by
  simp only [glmReflect, Vec2.sub, Vec2.scale, Vec2.dot] at ht ⊢
  linear_combination (-2 * (n.x * v.x + n.y * v.y)) * ht

end Lemmas

/-! ## Collision response on one pair -/

section PairTheorems

variable {K : Type} [LinearOrderedField K]

/-- C7: two bodies that are both dragged, at any distance (overlapping or even
coincident): the resolver returns both exactly as they were, position and
velocity included. -/
theorem resolvePair_both_held (sqrt : K → K) (ballA ballB : BallStruct K)
    (hA : ballA.isBeingDragged = true) (hB : ballB.isBeingDragged = true) :
    resolvePair sqrt ballA ballB = some (ballA, ballB) :=
  resolvePair_held_held sqrt ballA ballB hA hB

/-- C7, witness: two dragged bodies ten units apart. -/
theorem resolvePair_both_held_witness :
    resolvePair Real.sqrt (⟨⟨100, 300⟩, ⟨1, 2⟩, true⟩ : BallStruct ℝ)
        ⟨⟨110, 300⟩, ⟨-2, 5⟩, true⟩ =
      some (⟨⟨100, 300⟩, ⟨1, 2⟩, true⟩, ⟨⟨110, 300⟩, ⟨-2, 5⟩, true⟩) :=
  resolvePair_both_held Real.sqrt _ _ rfl rfl

end PairTheorems

/-! ## Integration and confinement of one body -/

section BallLemmas

variable {K : Type} [LinearOrderedField K]

lemma Vec2.add_assoc (a b c : Vec2 K) : (a.add b).add c = a.add (b.add c) := by
  ext <;> simp only [Vec2.add] <;> ring

lemma Vec2.zero_add (a : Vec2 K) : (⟨0, 0⟩ : Vec2 K).add a = a := by
  ext <;> simp [Vec2.add]

lemma foldl_forces (forces : List (BallForce K)) :
    ∀ v : Vec2 K, forces.foldl (fun v force => v.add force.velocity) v
      = v.add (forceSum forces) := by
  unfold forceSum
  induction forces with
  | nil => intro v; ext <;> simp [Vec2.add]
  | cons f fs ih =>
    intro v
    simp only [List.foldl_cons]
    rw [ih (v.add f.velocity), ih ((⟨0, 0⟩ : Vec2 K).add f.velocity), Vec2.zero_add,
      Vec2.add_assoc]

lemma integrate_free (forces : List (BallForce K)) (ball : BallStruct K)
    (h : ball.isBeingDragged = false) :
    integrate forces ball =
      ⟨ball.position.add (ball.velocity.add (forceSum forces)),
       ball.velocity.add (forceSum forces), false⟩ := by
  unfold integrate
  simp [h, foldl_forces]

lemma integrate_held (forces : List (BallForce K)) (ball : BallStruct K)
    (h : ball.isBeingDragged = true) : integrate forces ball = ball := by
  unfold integrate
  simp [h]

/-- A body strictly inside the confinement interval on both axes passes the
four edge rules unchanged. -/
lemma confine_of_inside (bounds : IVec2) (ball : BallStruct K)
    (hx1 : BALL_RADIUS / 2 < ball.position.x)
    (hx2 : ball.position.x < (bounds.x : K) - BALL_RADIUS / 2)
    (hy1 : BALL_RADIUS / 2 < ball.position.y)
    (hy2 : ball.position.y < (bounds.y : K) - BALL_RADIUS / 2) :
    confine bounds ball = ball := by
  have hhalf : (0.5 : K) = 1 / 2 := by norm_num
  have e1 : bottomEdge bounds ball = ball := by
    unfold bottomEdge
    rw [if_neg]
    rw [hhalf]
    intro h
    have : ball.position.y ≥ (bounds.y : K) - BALL_RADIUS / 2 := by linarith
    linarith
  have e2 : topEdge ball = ball := by
    unfold topEdge
    rw [if_neg]
    rw [hhalf]
    intro h
    linarith
  have e3 : leftEdge ball = ball := by
    unfold leftEdge
    rw [if_neg]
    rw [hhalf]
    intro h
    linarith
  have e4 : rightEdge bounds ball = ball := by
    unfold rightEdge
    rw [if_neg]
    rw [hhalf]
    intro h
    have : ball.position.x ≥ (bounds.x : K) - BALL_RADIUS / 2 := by linarith
    linarith
  unfold confine
  rw [e1, e2, e3, e4]

lemma leftEdge_y (ball : BallStruct K) :
    (leftEdge ball).position.y = ball.position.y ∧
    (leftEdge ball).velocity.y = ball.velocity.y := by
  unfold leftEdge
  split_ifs <;> simp

lemma rightEdge_y (bounds : IVec2) (ball : BallStruct K) :
    (rightEdge bounds ball).position.y = ball.position.y ∧
    (rightEdge bounds ball).velocity.y = ball.velocity.y := by
  unfold rightEdge
  split_ifs <;> simp

lemma leftEdge_x_congr (b c : BallStruct K) (hp : b.position.x = c.position.x)
    (hv : b.velocity.x = c.velocity.x) :
    (leftEdge b).position.x = (leftEdge c).position.x ∧
    (leftEdge b).velocity.x = (leftEdge c).velocity.x := by
  unfold leftEdge
  rw [hp, hv]
  split_ifs <;> simp [hp, hv]

lemma rightEdge_x_congr (bounds : IVec2) (b c : BallStruct K)
    (hp : b.position.x = c.position.x) (hv : b.velocity.x = c.velocity.x) :
    (rightEdge bounds b).position.x = (rightEdge bounds c).position.x ∧
    (rightEdge bounds b).velocity.x = (rightEdge bounds c).velocity.x := by
  unfold rightEdge
  rw [hp, hv]
  split_ifs <;> simp [hp, hv]

lemma bottomEdge_x (bounds : IVec2) (ball : BallStruct K) :
    (bottomEdge bounds ball).position.x = ball.position.x ∧
    (bottomEdge bounds ball).velocity.x = ball.velocity.x := by
  unfold bottomEdge
  split_ifs <;> simp

lemma topEdge_x (ball : BallStruct K) :
    (topEdge ball).position.x = ball.position.x ∧
    (topEdge ball).velocity.x = ball.velocity.x := by
  unfold topEdge
  split_ifs <;> simp

/-- The x components after confinement are those the left and right rules
give on the x components the body entered with. -/
lemma confine_x (bounds : IVec2) (ball : BallStruct K) :
    (confine bounds ball).position.x = (rightEdge bounds (leftEdge ball)).position.x ∧
    (confine bounds ball).velocity.x = (rightEdge bounds (leftEdge ball)).velocity.x := by
  unfold confine
  have h1 := bottomEdge_x bounds ball
  have h2 := topEdge_x (bottomEdge bounds ball)
  have h3 := leftEdge_x_congr (topEdge (bottomEdge bounds ball)) ball
    (h2.1.trans h1.1) (h2.2.trans h1.2)
  exact rightEdge_x_congr bounds _ _ h3.1 h3.2

/-- The y components after confinement are those the bottom and top rules
give. -/
lemma confine_y (bounds : IVec2) (ball : BallStruct K) :
    (confine bounds ball).position.y = (topEdge (bottomEdge bounds ball)).position.y ∧
    (confine bounds ball).velocity.y = (topEdge (bottomEdge bounds ball)).velocity.y := by
  unfold confine
  have h1 := rightEdge_y bounds (leftEdge (topEdge (bottomEdge bounds ball)))
  have h2 := leftEdge_y (topEdge (bottomEdge bounds ball))
  exact ⟨h1.1.trans h2.1, h1.2.trans h2.2⟩

lemma bottomEdge_cases (bounds : IVec2) (ball : BallStruct K) :
    (ball.position.y ≥ (bounds.y : K) - BALL_RADIUS / 2 ∧ ball.velocity.y > 0 ∧
      (bottomEdge bounds ball).position.y = (bounds.y : K) - BALL_RADIUS / 2 ∧
      (bottomEdge bounds ball).velocity.y = ball.velocity.y * -VELO_DAMPIN) ∨
    (¬ (ball.position.y ≥ (bounds.y : K) - BALL_RADIUS / 2 ∧ ball.velocity.y > 0) ∧
      bottomEdge bounds ball = ball) := by
  have hhalf : (0.5 : K) = 1 / 2 := by norm_num
  unfold bottomEdge
  simp only [hhalf, mul_one_div]
  by_cases c1 : ball.position.y ≥ (bounds.y : K) - BALL_RADIUS / 2
  · by_cases c2 : ball.velocity.y > 0
    · exact Or.inl ⟨c1, c2, by simp [c1, c2], by simp [c1, c2]⟩
    · exact Or.inr ⟨fun h => c2 h.2, by simp [c2]⟩
  · exact Or.inr ⟨fun h => c1 h.1, by simp [c1]⟩

lemma topEdge_cases (ball : BallStruct K) :
    (ball.position.y ≤ BALL_RADIUS / 2 ∧ ball.velocity.y < 0 ∧
      (topEdge ball).position.y = BALL_RADIUS / 2 ∧ (topEdge ball).velocity.y = 0) ∨
    (¬ (ball.position.y ≤ BALL_RADIUS / 2 ∧ ball.velocity.y < 0) ∧ topEdge ball = ball) := by
  have hhalf : (0.5 : K) = 1 / 2 := by norm_num
  unfold topEdge
  simp only [hhalf, mul_one_div]
  by_cases c1 : ball.position.y ≤ BALL_RADIUS / 2
  · by_cases c2 : ball.velocity.y < 0
    · exact Or.inl ⟨c1, c2, by simp [c1, c2], by simp [c1, c2]⟩
    · exact Or.inr ⟨fun h => c2 h.2, by simp [c2]⟩
  · exact Or.inr ⟨fun h => c1 h.1, by simp [c1]⟩

lemma leftEdge_cases (ball : BallStruct K) :
    (ball.position.x ≤ BALL_RADIUS / 2 ∧ ball.velocity.x < 0 ∧
      (leftEdge ball).position.x = BALL_RADIUS / 2 ∧
      (leftEdge ball).velocity.x = ball.velocity.x * (-VELO_DAMPIN * VELO_DAMPIN)) ∨
    (¬ (ball.position.x ≤ BALL_RADIUS / 2 ∧ ball.velocity.x < 0) ∧ leftEdge ball = ball) := by
  have hhalf : (0.5 : K) = 1 / 2 := by norm_num
  unfold leftEdge
  simp only [hhalf, mul_one_div]
  by_cases c1 : ball.position.x ≤ BALL_RADIUS / 2
  · by_cases c2 : ball.velocity.x < 0
    · exact Or.inl ⟨c1, c2, by simp [c1, c2], by simp [c1, c2]⟩
    · exact Or.inr ⟨fun h => c2 h.2, by simp [c2]⟩
  · exact Or.inr ⟨fun h => c1 h.1, by simp [c1]⟩

lemma rightEdge_cases (bounds : IVec2) (ball : BallStruct K) :
    (ball.position.x ≥ (bounds.x : K) - BALL_RADIUS / 2 ∧ ball.velocity.x > 0 ∧
      (rightEdge bounds ball).position.x = (bounds.x : K) - BALL_RADIUS / 2 ∧
      (rightEdge bounds ball).velocity.x = ball.velocity.x * (-VELO_DAMPIN * VELO_DAMPIN)) ∨
    (¬ (ball.position.x ≥ (bounds.x : K) - BALL_RADIUS / 2 ∧ ball.velocity.x > 0) ∧
      rightEdge bounds ball = ball) := by
  have hhalf : (0.5 : K) = 1 / 2 := by norm_num
  unfold rightEdge
  simp only [hhalf, mul_one_div]
  by_cases c1 : ball.position.x ≥ (bounds.x : K) - BALL_RADIUS / 2
  · by_cases c2 : ball.velocity.x > 0
    · exact Or.inl ⟨c1, c2, by simp [c1, c2], by simp [c1, c2]⟩
    · exact Or.inr ⟨fun h => c2 h.2, by simp [c2]⟩
  · exact Or.inr ⟨fun h => c1 h.1, by simp [c1]⟩

/-- Confinement brings a body into the interval on both axes when the bounds
are at least `BALL_RADIUS` and, wherever the body lies beyond an end of the
interval, its velocity on that axis points further outward. -/
lemma confine_inside (bounds : IVec2) (ball : BallStruct K)
    (hbx : BALL_RADIUS ≤ (bounds.x : K)) (hby : BALL_RADIUS ≤ (bounds.y : K))
    (hx1 : ball.position.x < BALL_RADIUS / 2 → ball.velocity.x < 0)
    (hx2 : (bounds.x : K) - BALL_RADIUS / 2 < ball.position.x → 0 < ball.velocity.x)
    (hy1 : ball.position.y < BALL_RADIUS / 2 → ball.velocity.y < 0)
    (hy2 : (bounds.y : K) - BALL_RADIUS / 2 < ball.position.y → 0 < ball.velocity.y) :
    (BALL_RADIUS / 2 ≤ (confine bounds ball).position.x ∧
      (confine bounds ball).position.x ≤ (bounds.x : K) - BALL_RADIUS / 2) ∧
    (BALL_RADIUS / 2 ≤ (confine bounds ball).position.y ∧
      (confine bounds ball).position.y ≤ (bounds.y : K) - BALL_RADIUS / 2) := by
  rw [(confine_x bounds ball).1, (confine_y bounds ball).1]
  constructor
  · rcases leftEdge_cases ball with ⟨l1, l2, l3, l4⟩ | ⟨l1, l2⟩
    · rcases rightEdge_cases bounds (leftEdge ball) with ⟨r1, r2, r3, r4⟩ | ⟨r1, r2⟩
      · rw [r3]
        constructor <;> linarith
      · rw [r2, l3]
        constructor <;> linarith
    · rw [l2]
      rcases rightEdge_cases bounds ball with ⟨r1, r2, r3, r4⟩ | ⟨r1, r2⟩
      · rw [r3]
        constructor <;> linarith
      · rw [r2]
        constructor
        · by_contra c
          exact l1 ⟨by linarith, hx1 (not_le.mp c)⟩
        · by_contra c
          exact r1 ⟨by linarith, hx2 (not_le.mp c)⟩
  · rcases bottomEdge_cases bounds ball with ⟨l1, l2, l3, l4⟩ | ⟨l1, l2⟩
    · rcases topEdge_cases (bottomEdge bounds ball) with ⟨r1, r2, r3, r4⟩ | ⟨r1, r2⟩
      · rw [r3]
        constructor <;> linarith
      · rw [r2, l3]
        constructor <;> linarith
    · rw [l2]
      rcases topEdge_cases ball with ⟨r1, r2, r3, r4⟩ | ⟨r1, r2⟩
      · rw [r3]
        constructor <;> linarith
      · rw [r2]
        constructor
        · by_contra c
          exact r1 ⟨by linarith, hy1 (not_le.mp c)⟩
        · by_contra c
          exact l1 ⟨by linarith, hy2 (not_le.mp c)⟩

end BallLemmas

/-! ## The whole tick -/

section TickLemmas

variable {K : Type} [LinearOrderedField K]

lemma integrationPass_length (engine : BallEngine K) :
    (integrationPass engine).length = engine.balls.length := by
  simp [integrationPass]

lemma integrationPass_getElem? (engine : BallEngine K) (i : Nat) :
    (integrationPass engine)[i]? =
      engine.balls[i]?.map (updateBall engine.forces engine.settings.bounds) := by
  simp [integrationPass]

/-- When no pair is closer than `2 * BALL_RADIUS` after the first loop, the tick
returns the output of the first loop. -/
lemma Update_of_far (sqrt : K → K) (engine : BallEngine K)
    (hfar : ∀ (j k : Nat) (hj : j < (integrationPass engine).length)
      (hk : k < (integrationPass engine).length), j < k →
      2 * BALL_RADIUS ≤ glmDistance sqrt (integrationPass engine)[j].position
        (integrationPass engine)[k].position) :
    Update sqrt engine = some { engine with balls := integrationPass engine } := by
  unfold Update
  rw [collisionPass_far sqrt _ hfar]
  rfl

/-- In a list of two bodies the only pair the loops visit is `(0, 1)`. -/
lemma far_of_two (sqrt : K → K) (b0 b1 : BallStruct K)
    (h : 2 * BALL_RADIUS ≤ glmDistance sqrt b0.position b1.position) :
    ∀ (j k : Nat) (hj : j < [b0, b1].length) (hk : k < [b0, b1].length), j < k →
      2 * BALL_RADIUS ≤ glmDistance sqrt [b0, b1][j].position [b0, b1][k].position := by
  intro j k hj hk hjk
  simp only [List.length_cons, List.length_nil] at hj hk
  have hj0 : j = 0 := by omega
  have hk1 : k = 1 := by omega
  subst hj0 hk1
  exact h

/-- Two bodies that are not dragged, on one horizontal line and closer than
`2 * BALL_RADIUS`: the normal is `(1, 0)`, each body is pushed half the
overlap along the x axis and the x component of each velocity changes sign. -/
lemma resolvePair_free_free_horizontal {sqrt : K → K} (hs : IsSqrt sqrt) (ax bx y : K)
    (va vb : Vec2 K) (h1 : ax < bx) (h2 : bx - ax < 64) :
    resolvePair sqrt ⟨⟨ax, y⟩, va, false⟩ ⟨⟨bx, y⟩, vb, false⟩ = some
      (⟨⟨ax - (64 - (bx - ax)) / 2, y⟩, ⟨-va.x, va.y⟩, false⟩,
       ⟨⟨bx + (64 - (bx - ax)) / 2, y⟩, ⟨-vb.x, vb.y⟩, false⟩) := by
  have hd := glmDistance_mk_horizontal hs ax bx y (le_of_lt h1)
  have hne : bx - ax ≠ 0 := ne_of_gt (sub_pos.mpr h1)
  rw [resolvePair_free_free sqrt _ _ rfl rfl (by simp only [hd]; linarith)
    (by simp only [hd]; norm_num [BALL_RADIUS]; linarith)]
  simp only [collisionNormal, overlap, hd, glmReflect, Vec2.sub, Vec2.add, Vec2.scale,
    Vec2.dot, BALL_RADIUS, Option.some.injEq, Prod.mk.injEq, BallStruct.mk.injEq,
    Vec2.mk.injEq, and_true]
  refine ⟨⟨⟨?_, ?_⟩, ?_, ?_⟩, ⟨?_, ?_⟩, ?_, ?_⟩ <;> field_simp <;> ring

/-- The first loop on the world constructed for an `800 x 600` window: both
bodies receive gravity and stay clear of every edge. -/
lemma integrationPass_new_800_600 :
    integrationPass (BallEngine.new ⟨800, 600⟩ : BallEngine ℝ) =
      [⟨⟨200, 300.5⟩, ⟨0, 0.5⟩, false⟩, ⟨⟨600, 300.5⟩, ⟨0, 0.5⟩, false⟩] := by
  norm_num [integrationPass, BallEngine.new, updateBall, integrate, confine, bottomEdge,
    topEdge, leftEdge, rightEdge, Vec2.add, BALL_RADIUS]

end TickLemmas

section TickTheorems

variable {K : Type} [LinearOrderedField K]

/-- C2 (the code at the failing input): a world with bounds `(800, 600)`,
the two default forces, and two bodies that are not dragged, both with centre
`(400, 300)`.  After the first loop both centres are `(400, 300.5)`; their
distance is `0`, which is below `2 * BALL_RADIUS`, so the collision branch is
entered and the zero displacement is normalized (`glmNormalize` gives `none`,
NaN in the program).  The pair is not left as it was: the resolver's result,
and with it the result of the tick, is `none`. -/
theorem update_coincident_centres_normalizes_zero :
    glmDistance Real.sqrt (⟨400, 300.5⟩ : Vec2 ℝ) ⟨400, 300.5⟩ = 0 ∧
    glmNormalize Real.sqrt ((⟨400, 300.5⟩ : Vec2 ℝ).sub ⟨400, 300.5⟩) = none ∧
    resolvePair Real.sqrt (⟨⟨400, 300.5⟩, ⟨0, 0.5⟩, false⟩ : BallStruct ℝ)
      ⟨⟨400, 300.5⟩, ⟨0, 0.5⟩, false⟩ = none ∧
    Update Real.sqrt (⟨[⟨⟨400, 300⟩, ⟨0, 0⟩, false⟩, ⟨⟨400, 300⟩, ⟨0, 0⟩, false⟩],
        [⟨"Gravity", ⟨0, 0.5⟩⟩, ⟨"Wind", ⟨0, 0⟩⟩], ⟨⟨800, 600⟩⟩⟩ : BallEngine ℝ) = none := by
  have hd : glmDistance Real.sqrt (⟨400, 300.5⟩ : Vec2 ℝ) ⟨400, 300.5⟩ = 0 := by
    rw [glmDistance_horizontal real_isSqrt _ _ rfl le_rfl]
    simp
  have hr := resolvePair_coincident real_isSqrt
    (⟨⟨400, 300.5⟩, ⟨0, 0.5⟩, false⟩ : BallStruct ℝ) ⟨⟨400, 300.5⟩, ⟨0, 0.5⟩, false⟩ rfl rfl
  have hI : integrationPass (⟨[⟨⟨400, 300⟩, ⟨0, 0⟩, false⟩, ⟨⟨400, 300⟩, ⟨0, 0⟩, false⟩],
        [⟨"Gravity", ⟨0, 0.5⟩⟩, ⟨"Wind", ⟨0, 0⟩⟩], ⟨⟨800, 600⟩⟩⟩ : BallEngine ℝ) =
      [⟨⟨400, 300.5⟩, ⟨0, 0.5⟩, false⟩, ⟨⟨400, 300.5⟩, ⟨0, 0.5⟩, false⟩] := by
    norm_num [integrationPass, updateBall, integrate, confine, bottomEdge,
      topEdge, leftEdge, rightEdge, Vec2.add, BALL_RADIUS]
  have hP : pairIndices 2 = [(0, 1)] := by decide
  refine ⟨hd, glmNormalize_of_zero _ _ hd, hr, ?_⟩
  unfold Update
  rw [hI]
  simp only [collisionPass, List.length_cons, List.length_nil, Nat.zero_add, Nat.reduceAdd,
    hP, List.foldlM_cons, List.foldlM_nil, collideAt]
  norm_num at hr
  norm_num [hr]

end TickTheorems

/-! ## The edge rules, one by one -/

section EdgeTheorems

variable {K : Type} [LinearOrderedField K]

lemma VELO_DAMPIN_pos : (0 : K) < VELO_DAMPIN := by
  unfold VELO_DAMPIN
  norm_num

/-- After the bottom and top rules neither of their conditions holds, when
`bounds.y` exceeds `BALL_RADIUS`. -/
lemma topBottom_settled (bounds : IVec2) (ball : BallStruct K)
    (hby : (bounds.y : K) > BALL_RADIUS) :
    ¬ ((topEdge (bottomEdge bounds ball)).position.y ≥ (bounds.y : K) - BALL_RADIUS / 2 ∧
        (topEdge (bottomEdge bounds ball)).velocity.y > 0) ∧
    ¬ ((topEdge (bottomEdge bounds ball)).position.y ≤ BALL_RADIUS / 2 ∧
        (topEdge (bottomEdge bounds ball)).velocity.y < 0) := by
  have hD : (0 : K) < VELO_DAMPIN := VELO_DAMPIN_pos
  rcases bottomEdge_cases bounds ball with ⟨l1, l2, l3, l4⟩ | ⟨l1, l2⟩
  · rcases topEdge_cases (bottomEdge bounds ball) with ⟨r1, r2, r3, r4⟩ | ⟨r1, r2⟩
    · rw [l3] at r1
      exact absurd r1 (by linarith)
    · rw [r2, l3, l4]
      constructor
      · rintro ⟨_, h⟩
        nlinarith
      · rintro ⟨h, _⟩
        linarith
  · rw [l2]
    rcases topEdge_cases ball with ⟨r1, r2, r3, r4⟩ | ⟨r1, r2⟩
    · rw [r3, r4]
      constructor
      · rintro ⟨_, h⟩
        exact lt_irrefl _ h
      · rintro ⟨_, h⟩
        exact lt_irrefl _ h
    · rw [r2]
      exact ⟨l1, r1⟩

/-- After the left and right rules neither of their conditions holds, when
`bounds.x` exceeds `BALL_RADIUS`. -/
lemma rightLeft_settled (bounds : IVec2) (ball : BallStruct K)
    (hbx : (bounds.x : K) > BALL_RADIUS) :
    ¬ ((rightEdge bounds (leftEdge ball)).position.x ≤ BALL_RADIUS / 2 ∧
        (rightEdge bounds (leftEdge ball)).velocity.x < 0) ∧
    ¬ ((rightEdge bounds (leftEdge ball)).position.x ≥ (bounds.x : K) - BALL_RADIUS / 2 ∧
        (rightEdge bounds (leftEdge ball)).velocity.x > 0) := by
  have hD : (0 : K) < VELO_DAMPIN := VELO_DAMPIN_pos
  have hDD : (0 : K) < VELO_DAMPIN * VELO_DAMPIN := mul_pos hD hD
  rcases leftEdge_cases ball with ⟨l1, l2, l3, l4⟩ | ⟨l1, l2⟩
  · rcases rightEdge_cases bounds (leftEdge ball) with ⟨r1, r2, r3, r4⟩ | ⟨r1, r2⟩
    · rw [l3] at r1
      exact absurd r1 (by simp only [ge_iff_le, not_le]; linarith)
    · rw [r2, l3, l4]
      constructor
      · rintro ⟨_, h⟩
        nlinarith
      · rintro ⟨h, _⟩
        linarith
  · rw [l2]
    rcases rightEdge_cases bounds ball with ⟨r1, r2, r3, r4⟩ | ⟨r1, r2⟩
    · rw [r3, r4]
      constructor
      · rintro ⟨h, _⟩
        linarith
      · rintro ⟨_, h⟩
        nlinarith
    · rw [r2]
      exact ⟨l1, r1⟩

/-- A body for which none of the four edge conditions holds passes
confinement unchanged. -/
lemma confine_eq_self (bounds : IVec2) (ball : BallStruct K)
    (h1 : ¬ (ball.position.y ≥ (bounds.y : K) - BALL_RADIUS / 2 ∧ ball.velocity.y > 0))
    (h2 : ¬ (ball.position.y ≤ BALL_RADIUS / 2 ∧ ball.velocity.y < 0))
    (h3 : ¬ (ball.position.x ≤ BALL_RADIUS / 2 ∧ ball.velocity.x < 0))
    (h4 : ¬ (ball.position.x ≥ (bounds.x : K) - BALL_RADIUS / 2 ∧ ball.velocity.x > 0)) :
    confine bounds ball = ball := by
  have e1 : bottomEdge bounds ball = ball := by
    rcases bottomEdge_cases bounds ball with ⟨l1, l2, _, _⟩ | ⟨_, l2⟩
    · exact absurd ⟨l1, l2⟩ h1
    · exact l2
  have e2 : topEdge ball = ball := by
    rcases topEdge_cases ball with ⟨l1, l2, _, _⟩ | ⟨_, l2⟩
    · exact absurd ⟨l1, l2⟩ h2
    · exact l2
  have e3 : leftEdge ball = ball := by
    rcases leftEdge_cases ball with ⟨l1, l2, _, _⟩ | ⟨_, l2⟩
    · exact absurd ⟨l1, l2⟩ h3
    · exact l2
  have e4 : rightEdge bounds ball = ball := by
    rcases rightEdge_cases bounds ball with ⟨l1, l2, _, _⟩ | ⟨_, l2⟩
    · exact absurd ⟨l1, l2⟩ h4
    · exact l2
  unfold confine
  rw [e1, e2, e3, e4]

/-- C15, top-edge rule: a body that enters boundary confinement with
`position.y ≤ BALL_RADIUS / 2` and `velocity.y < 0` leaves it with
`velocity.y = 0` exactly (no bounce) and `position.y = BALL_RADIUS / 2`, which
is `16`. -/
theorem confine_top_edge (bounds : IVec2) (ball : BallStruct K)
    (hp : ball.position.y ≤ BALL_RADIUS / 2) (hv : ball.velocity.y < 0) :
    (confine bounds ball).velocity.y = 0 ∧
    (confine bounds ball).position.y = BALL_RADIUS / 2 ∧
    (BALL_RADIUS / 2 : K) = 16 := by
  rw [(confine_y bounds ball).1, (confine_y bounds ball).2]
  have e1 : bottomEdge bounds ball = ball := by
    rcases bottomEdge_cases bounds ball with ⟨_, l2, _, _⟩ | ⟨_, l2⟩
    · exact absurd l2 (not_lt.mpr (le_of_lt hv))
    · exact l2
  rw [e1]
  rcases topEdge_cases ball with ⟨_, _, r3, r4⟩ | ⟨r1, _⟩
  · exact ⟨r4, r3, by norm_num [BALL_RADIUS]⟩
  · exact absurd ⟨hp, hv⟩ r1

/-- C15, witness: a body at `y = 10` moving up with `velocity.y = -3`. -/
theorem confine_top_edge_witness :
    (confine ⟨800, 600⟩ (⟨⟨200, 10⟩, ⟨1, -3⟩, false⟩ : BallStruct ℚ)).velocity.y = 0 ∧
    (confine ⟨800, 600⟩ (⟨⟨200, 10⟩, ⟨1, -3⟩, false⟩ : BallStruct ℚ)).position.y = 16 := by
  have h := confine_top_edge ⟨800, 600⟩ (⟨⟨200, 10⟩, ⟨1, -3⟩, false⟩ : BallStruct ℚ)
    (by norm_num [BALL_RADIUS]) (by norm_num)
  exact ⟨h.1, h.2.1.trans h.2.2⟩

/-- C19: boundary confinement is idempotent when both bounds exceed
`BALL_RADIUS`.  After the four edge rules have been applied once, none of
their conditions holds for the result, and applying the rules a second time
changes nothing. -/
theorem confine_idempotent (bounds : IVec2) (ball : BallStruct K)
    (hbx : (bounds.x : K) > BALL_RADIUS) (hby : (bounds.y : K) > BALL_RADIUS) :
    ¬ ((confine bounds ball).position.y ≥ (bounds.y : K) - BALL_RADIUS / 2 ∧
        (confine bounds ball).velocity.y > 0) ∧
    ¬ ((confine bounds ball).position.y ≤ BALL_RADIUS / 2 ∧
        (confine bounds ball).velocity.y < 0) ∧
    ¬ ((confine bounds ball).position.x ≤ BALL_RADIUS / 2 ∧
        (confine bounds ball).velocity.x < 0) ∧
    ¬ ((confine bounds ball).position.x ≥ (bounds.x : K) - BALL_RADIUS / 2 ∧
        (confine bounds ball).velocity.x > 0) ∧
    confine bounds (confine bounds ball) = confine bounds ball := by
  have hy := topBottom_settled bounds ball hby
  have hx := rightLeft_settled bounds ball hbx
  rw [← (confine_y bounds ball).1, ← (confine_y bounds ball).2] at hy
  rw [← (confine_x bounds ball).1, ← (confine_x bounds ball).2] at hx
  exact ⟨hy.1, hy.2, hx.1, hx.2, confine_eq_self bounds _ hy.1 hy.2 hx.1 hx.2⟩

/-- C19, witness: bounds `(800, 600)` and a body beyond the bottom right
corner moving outward; both the bottom and the right rule fire on the first
application. -/
theorem confine_idempotent_witness :
    confine ⟨800, 600⟩ (confine ⟨800, 600⟩ (⟨⟨795, 595⟩, ⟨4, 2⟩, false⟩ : BallStruct ℚ)) =
      confine ⟨800, 600⟩ (⟨⟨795, 595⟩, ⟨4, 2⟩, false⟩ : BallStruct ℚ) :=
  (confine_idempotent ⟨800, 600⟩ (⟨⟨795, 595⟩, ⟨4, 2⟩, false⟩ : BallStruct ℚ)
    (by norm_num [BALL_RADIUS]) (by norm_num [BALL_RADIUS])).2.2.2.2

end EdgeTheorems

/-! ## Construction -/

section MoreTheorems

variable {K : Type} [LinearOrderedField K]

/-- C17: for every integer bounds `(w, h)` the constructor yields exactly two
bodies, in order at `(0.25 * w, 0.5 * h)` and `(0.75 * w, 0.5 * h)`, neither
dragged, and exactly two forces, in order `"Gravity"` with vector `(0, 0.5)`
and `"Wind"` with vector `(0, 0)`; the stored bounds are `(w, h)`. -/
theorem BallEngine_new_contents (bounds : IVec2) :
    (BallEngine.new bounds : BallEngine K).balls.length = 2 ∧
    (BallEngine.new bounds : BallEngine K).balls.map (fun ball => ball.position) =
      [⟨0.25 * (bounds.x : K), 0.5 * (bounds.y : K)⟩,
       ⟨0.75 * (bounds.x : K), 0.5 * (bounds.y : K)⟩] ∧
    (BallEngine.new bounds : BallEngine K).balls.map (fun ball => ball.isBeingDragged) =
      [false, false] ∧
    (BallEngine.new bounds : BallEngine K).forces.length = 2 ∧
    (BallEngine.new bounds : BallEngine K).forces.map (fun force => force.name) =
      ["Gravity", "Wind"] ∧
    (BallEngine.new bounds : BallEngine K).forces.map (fun force => force.velocity) =
      [⟨0, 0.5⟩, ⟨0, 0⟩] ∧
    (BallEngine.new bounds : BallEngine K).settings.bounds = bounds := by
  refine ⟨rfl, ?_, rfl, rfl, rfl, rfl, rfl⟩
  simp only [BallEngine.new, List.map_cons, List.map_nil, mul_comm]

lemma glmReflect_dot_self (v n : Vec2 K) (hn : n.dot n = 1) :
    (glmReflect v n).dot (glmReflect v n) = v.dot v := by
  simp only [glmReflect, Vec2.sub, Vec2.scale, Vec2.dot] at hn ⊢
  linear_combination (4 * (n.x * v.x + n.y * v.y) ^ 2) * hn

lemma glmLength_glmReflect (sqrt : K → K) (v n : Vec2 K) (hn : n.dot n = 1) :
    glmLength sqrt (glmReflect v n) = glmLength sqrt v := by
  unfold glmLength
  rw [glmReflect_dot_self v n hn]

/-- In a world of two bodies the collision loops resolve the one pair
`(0, 1)`. -/
lemma collisionPass_two (sqrt : K → K) (a b : BallStruct K) :
    collisionPass sqrt [a, b] = (resolvePair sqrt a b).map fun r => [r.1, r.2] := by
  have hP : pairIndices 2 = [(0, 1)] := by decide
  cases h : resolvePair sqrt a b <;>
    simp [collisionPass, hP, collideAt, h]

end MoreTheorems

/-! ## The pointer handlers -/

section HandlerTheorems

variable {K : Type} [LinearOrderedField K]

lemma mouseDownScan_none (sqrt : K → K) (mouse : Vec2 K) :
    ∀ (balls : List (BallStruct K)) (idx : Nat),
      (∀ ball ∈ balls, ¬ glmDistance sqrt ball.position mouse < BALL_RADIUS) →
      mouseDownScan sqrt mouse idx balls = none
  | [], _, _ => rfl
  | ball :: rest, idx, h => by
    have h0 := h ball (List.mem_cons_self _ _)
    have ih := mouseDownScan_none sqrt mouse rest (idx + 1)
      fun b hb => h b (List.mem_cons_of_mem _ hb)
    simp [mouseDownScan, h0, ih]

lemma mouseDownScan_first (sqrt : K → K) (mouse : Vec2 K) :
    ∀ (balls : List (BallStruct K)) (idx i : Nat) (hi : i < balls.length),
      glmDistance sqrt balls[i].position mouse < BALL_RADIUS →
      (∀ (j : Nat) (hj : j < i),
        ¬ glmDistance sqrt (balls[j]).position mouse < BALL_RADIUS) →
      mouseDownScan sqrt mouse idx balls =
        some (balls.set i { balls[i] with isBeingDragged := true }, idx + i)
  | [], _, _, hi, _, _ => absurd hi (Nat.not_lt_zero _)
  | ball :: rest, idx, 0, _, hhit, _ => by
    simp only [List.getElem_cons_zero] at hhit
    simp [mouseDownScan, hhit]
  | ball :: rest, idx, i + 1, hi, hhit, hbefore => by
    have h0 := hbefore 0 (Nat.succ_pos i)
    simp only [List.getElem_cons_zero] at h0
    simp only [List.getElem_cons_succ] at hhit
    have ih := mouseDownScan_first sqrt mouse rest (idx + 1) i
      (Nat.lt_of_succ_lt_succ hi) hhit
      (fun j hj => by
        have := hbefore (j + 1) (Nat.succ_lt_succ hj)
        simpa only [List.getElem_cons_succ] using this)
    simp only [mouseDownScan, h0, if_false, ih, Option.map_some', List.getElem_cons_succ,
      List.set_cons_succ]
    congr 2
    omega

lemma mouseDownScan_again (sqrt : K → K) (mouse : Vec2 K) :
    ∀ (balls : List (BallStruct K)) (idx : Nat) (r : List (BallStruct K) × Nat),
      mouseDownScan sqrt mouse idx balls = some r →
      mouseDownScan sqrt mouse idx r.1 = some r
  | [], _, _, h => by simp [mouseDownScan] at h
  | ball :: rest, idx, r, h => by
    by_cases h0 : glmDistance sqrt ball.position mouse < BALL_RADIUS
    · simp only [mouseDownScan, h0, if_true, Option.some.injEq] at h
      subst h
      simp [mouseDownScan, h0]
    · simp only [mouseDownScan, h0, if_false, Option.map_eq_some'] at h
      obtain ⟨q, hq, rfl⟩ := h
      have ih := mouseDownScan_again sqrt mouse rest (idx + 1) q hq
      simp [mouseDownScan, h0, ih]

/-- C12 (the code at the failing input): the application set up for an
`800 x 600` window, then `mouseDown` at `(200, 300)`, the centre of the first
body, and `mouseDown` at `(600, 300)`, the centre of the second, with no
`mouseUp` between them.  Both bodies then have `isBeingDragged = true` while
`currentBall` records only the second; a `mouseUp` releases the second and
leaves the first dragged with `currentBall` empty. -/
theorem mouseDown_twice_drags_two_bodies :
    mouseDown Real.sqrt (mouseDown Real.sqrt (setup ⟨800, 600⟩ : BasicApp ℝ) ⟨200, 300⟩)
        ⟨600, 300⟩ =
      ⟨⟨[⟨⟨200, 300⟩, ⟨0, 0⟩, true⟩, ⟨⟨600, 300⟩, ⟨0, 0⟩, true⟩],
        [⟨"Gravity", ⟨0, 0.5⟩⟩, ⟨"Wind", ⟨0, 0⟩⟩], ⟨⟨800, 600⟩⟩⟩, some 1⟩ ∧
    mouseUp (mouseDown Real.sqrt
        (mouseDown Real.sqrt (setup ⟨800, 600⟩ : BasicApp ℝ) ⟨200, 300⟩) ⟨600, 300⟩) =
      ⟨⟨[⟨⟨200, 300⟩, ⟨0, 0⟩, true⟩, ⟨⟨600, 300⟩, ⟨0, 0⟩, false⟩],
        [⟨"Gravity", ⟨0, 0.5⟩⟩, ⟨"Wind", ⟨0, 0⟩⟩], ⟨⟨800, 600⟩⟩⟩, none⟩ := by
  have hS : (setup ⟨800, 600⟩ : BasicApp ℝ) =
      ⟨⟨[⟨⟨200, 300⟩, ⟨0, 0⟩, false⟩, ⟨⟨600, 300⟩, ⟨0, 0⟩, false⟩],
        [⟨"Gravity", ⟨0, 0.5⟩⟩, ⟨"Wind", ⟨0, 0⟩⟩], ⟨⟨800, 600⟩⟩⟩, none⟩ := by
    norm_num [setup, BallEngine.new]
  have d0 : glmDistance Real.sqrt (⟨200, 300⟩ : Vec2 ℝ) ⟨200, 300⟩ = 0 := by
    rw [glmDistance_mk_horizontal real_isSqrt 200 200 300 le_rfl]
    norm_num
  have d1 : glmDistance Real.sqrt (⟨200, 300⟩ : Vec2 ℝ) ⟨600, 300⟩ = 400 := by
    rw [glmDistance_mk_horizontal real_isSqrt 200 600 300 (by norm_num)]
    norm_num
  have d2 : glmDistance Real.sqrt (⟨600, 300⟩ : Vec2 ℝ) ⟨600, 300⟩ = 0 := by
    rw [glmDistance_mk_horizontal real_isSqrt 600 600 300 le_rfl]
    norm_num
  have h1 : mouseDown Real.sqrt (setup ⟨800, 600⟩ : BasicApp ℝ) ⟨200, 300⟩ =
      ⟨⟨[⟨⟨200, 300⟩, ⟨0, 0⟩, true⟩, ⟨⟨600, 300⟩, ⟨0, 0⟩, false⟩],
        [⟨"Gravity", ⟨0, 0.5⟩⟩, ⟨"Wind", ⟨0, 0⟩⟩], ⟨⟨800, 600⟩⟩⟩, some 0⟩ := by
    rw [hS]
    norm_num [mouseDown, mouseDownScan, d0, BALL_RADIUS]
  have h2 : mouseDown Real.sqrt
      (⟨⟨[⟨⟨200, 300⟩, ⟨0, 0⟩, true⟩, ⟨⟨600, 300⟩, ⟨0, 0⟩, false⟩],
        [⟨"Gravity", ⟨0, 0.5⟩⟩, ⟨"Wind", ⟨0, 0⟩⟩], ⟨⟨800, 600⟩⟩⟩, some 0⟩ : BasicApp ℝ)
      ⟨600, 300⟩ =
      ⟨⟨[⟨⟨200, 300⟩, ⟨0, 0⟩, true⟩, ⟨⟨600, 300⟩, ⟨0, 0⟩, true⟩],
        [⟨"Gravity", ⟨0, 0.5⟩⟩, ⟨"Wind", ⟨0, 0⟩⟩], ⟨⟨800, 600⟩⟩⟩, some 1⟩ := by
    norm_num [mouseDown, mouseDownScan, d1, d2, BALL_RADIUS]
  rw [h1, h2]
  refine ⟨rfl, ?_⟩
  simp [mouseUp]

/-- The two tests of lines 218-223 compute the clamp into `[0, bound]` when
the bound is not negative. -/
lemma constrain_eq_clamp (p bound : K) (hb : 0 ≤ bound) :
    (if p < 0 then 0 else if p > bound then bound else p) = max 0 (min p bound) := by
  by_cases h1 : p < 0
  · rw [if_pos h1, min_eq_left (le_trans (le_of_lt h1) hb), max_eq_left (le_of_lt h1)]
  · rw [if_neg h1]
    by_cases h2 : p > bound
    · rw [if_pos h2, min_eq_right (le_of_lt h2), max_eq_right hb]
    · rw [if_neg h2, min_eq_left (not_lt.mp h2), max_eq_right (not_lt.mp h1)]

lemma mouseDrag_getElem? (app : BasicApp K) (pos : IVec2) (i : Nat) (ball : BallStruct K)
    (hcur : app.currentBall = some i) (hball : app.engine.balls[i]? = some ball)
    (hbx : 0 ≤ (app.engine.settings.bounds.x : K))
    (hby : 0 ≤ (app.engine.settings.bounds.y : K)) :
    (mouseDrag app pos).currentBall = some i ∧
    (mouseDrag app pos).engine.balls[i]? = some
      { ball with
        velocity := ⟨0, 0⟩
        position :=
          ⟨max 0 (min (pos.x : K) (app.engine.settings.bounds.x : K)),
           max 0 (min (pos.y : K) (app.engine.settings.bounds.y : K))⟩ } := by
  obtain ⟨hi, _⟩ := List.getElem?_eq_some_iff.mp hball
  simp only [mouseDrag, hcur, hball, constrain_eq_clamp _ _ hbx, constrain_eq_clamp _ _ hby,
    List.getElem?_set_self hi, and_self]

/-- C14: in a world with non-negative bounds, with `currentBall` pointing to a
body, `mouseDrag` at pointer position `pos` sets that body's velocity to
`(0, 0)` and its position to `pos` clamped componentwise into
`[0, bounds.x] x [0, bounds.y]`; after a following `mouseUp` the body is still
at that clamped position. -/
theorem mouseDrag_stores_clamped_pointer (app : BasicApp K) (pos : IVec2) (i : Nat)
    (ball : BallStruct K)
    (hcur : app.currentBall = some i) (hball : app.engine.balls[i]? = some ball)
    (hbx : 0 ≤ (app.engine.settings.bounds.x : K))
    (hby : 0 ≤ (app.engine.settings.bounds.y : K)) :
    (mouseDrag app pos).engine.balls[i]? = some
      { ball with
        velocity := ⟨0, 0⟩
        position :=
          ⟨max 0 (min (pos.x : K) (app.engine.settings.bounds.x : K)),
           max 0 (min (pos.y : K) (app.engine.settings.bounds.y : K))⟩ } ∧
    ∃ released, (mouseUp (mouseDrag app pos)).engine.balls[i]? = some released ∧
      released.position =
        ⟨max 0 (min (pos.x : K) (app.engine.settings.bounds.x : K)),
         max 0 (min (pos.y : K) (app.engine.settings.bounds.y : K))⟩ := by
  obtain ⟨h1, h2⟩ := mouseDrag_getElem? app pos i ball hcur hball hbx hby
  obtain ⟨hi, _⟩ := List.getElem?_eq_some_iff.mp h2
  refine ⟨h2, ?_⟩
  cases hd : ball.isBeingDragged
  · exact ⟨_, by simp only [mouseUp, h1, h2, hd]; exact h2, rfl⟩
  · refine ⟨{ ball with
        velocity := ⟨0, 0⟩
        position :=
          ⟨max 0 (min (pos.x : K) (app.engine.settings.bounds.x : K)),
           max 0 (min (pos.y : K) (app.engine.settings.bounds.y : K))⟩
        isBeingDragged := false }, ?_, rfl⟩
    simp only [mouseUp, h1, h2, hd, if_true, List.getElem?_set_self hi]

/-- C14, witness: bounds `(800, 600)`, the first body grabbed at `(5, 5)`, the
pointer at `(-50, -50)`: the stored position is `(0, 0)`, also after
`mouseUp`. -/
theorem mouseDrag_stores_clamped_pointer_witness :
    (mouseDrag (⟨⟨[⟨⟨5, 5⟩, ⟨1, 2⟩, true⟩, ⟨⟨600, 300⟩, ⟨0, 0⟩, false⟩],
        [⟨"Gravity", ⟨0, 0.5⟩⟩, ⟨"Wind", ⟨0, 0⟩⟩], ⟨⟨800, 600⟩⟩⟩, some 0⟩ : BasicApp ℚ)
        ⟨-50, -50⟩).engine.balls[0]? = some ⟨⟨0, 0⟩, ⟨0, 0⟩, true⟩ ∧
    ∃ released,
      (mouseUp (mouseDrag (⟨⟨[⟨⟨5, 5⟩, ⟨1, 2⟩, true⟩, ⟨⟨600, 300⟩, ⟨0, 0⟩, false⟩],
        [⟨"Gravity", ⟨0, 0.5⟩⟩, ⟨"Wind", ⟨0, 0⟩⟩], ⟨⟨800, 600⟩⟩⟩, some 0⟩ : BasicApp ℚ)
        ⟨-50, -50⟩)).engine.balls[0]? = some released ∧
      released.position = ⟨0, 0⟩ := by
  have h := mouseDrag_stores_clamped_pointer
    (⟨⟨[⟨⟨5, 5⟩, ⟨1, 2⟩, true⟩, ⟨⟨600, 300⟩, ⟨0, 0⟩, false⟩],
      [⟨"Gravity", ⟨0, 0.5⟩⟩, ⟨"Wind", ⟨0, 0⟩⟩], ⟨⟨800, 600⟩⟩⟩, some 0⟩ : BasicApp ℚ)
    ⟨-50, -50⟩ 0 ⟨⟨5, 5⟩, ⟨1, 2⟩, true⟩ rfl rfl (by norm_num) (by norm_num)
  obtain ⟨h1, released, h2, h3⟩ := h
  refine ⟨h1.trans ?_, released, h2, h3.trans ?_⟩
  · norm_num
  · norm_num

end HandlerTheorems

/-! ## Dragged bodies across a tick -/

section TrackedLemmas

variable {K : Type} [LinearOrderedField K]

lemma resolvePairTracked_fst_of_held (sqrt : K → K) (ballA ballB : BallStruct K)
    (h : ballA.isBeingDragged = true) : (resolvePairTracked sqrt ballA ballB).1 = some ballA := by
  unfold resolvePairTracked
  cases hB : ballB.isBeingDragged <;> simp only [h, hB] <;> split_ifs <;> simp_all

lemma resolvePairTracked_snd_of_held (sqrt : K → K) (ballA ballB : BallStruct K)
    (h : ballB.isBeingDragged = true) : (resolvePairTracked sqrt ballA ballB).2 = some ballB := by
  unfold resolvePairTracked
  cases hA : ballA.isBeingDragged <;> simp only [h, hA] <;> split_ifs <;> simp_all

/-- One iteration of the inner loop never writes to a dragged body. -/
lemma collideAtTracked_keeps_held (sqrt : K → K) (balls : List (Option (BallStruct K)))
    (i : Nat) (ball : BallStruct K) (hb : balls[i]? = some (some ball))
    (hheld : ball.isBeingDragged = true) (ij : Nat × Nat) :
    (collideAtTracked sqrt balls ij)[i]? = some (some ball) := by
  obtain ⟨hi, _⟩ := List.getElem?_eq_some_iff.mp hb
  unfold collideAtTracked
  split
  · rename_i ballA ballB hA hB
    rw [List.getElem?_set]
    by_cases h2 : ij.2 = i
    · rw [if_pos h2, if_pos (by rw [List.length_set, h2]; exact hi)]
      rw [h2, hb] at hB
      have e : ballB = ball := by
        simpa using hB.symm
      rw [e, resolvePairTracked_snd_of_held sqrt ballA ball hheld]
    · rw [if_neg h2, List.getElem?_set]
      by_cases h1 : ij.1 = i
      · rw [if_pos h1, if_pos (by rw [h1]; exact hi)]
        rw [h1, hb] at hA
        have e : ballA = ball := by
          simpa using hA.symm
        rw [e, resolvePairTracked_fst_of_held sqrt ball ballB hheld]
      · rw [if_neg h1]
        exact hb
  · exact hb

lemma foldl_collideAtTracked_keeps_held (sqrt : K → K) (i : Nat) (ball : BallStruct K)
    (hheld : ball.isBeingDragged = true) :
    ∀ (pairs : List (Nat × Nat)) (balls : List (Option (BallStruct K))),
      balls[i]? = some (some ball) →
      (pairs.foldl (collideAtTracked sqrt) balls)[i]? = some (some ball)
  | [], _, hb => hb
  | ij :: pairs, balls, hb => by
    rw [List.foldl_cons]
    exact foldl_collideAtTracked_keeps_held sqrt i ball hheld pairs _
      (collideAtTracked_keeps_held sqrt balls i ball hb hheld ij)

/-- A dragged body on which no edge rule fires is the same after the tick,
whatever the other bodies do. -/
lemma UpdateTracked_keeps_held (sqrt : K → K) (engine : BallEngine K) (i : Nat)
    (ball : BallStruct K) (hb : engine.balls[i]? = some ball)
    (hheld : ball.isBeingDragged = true)
    (hconf : confine engine.settings.bounds ball = ball) :
    (UpdateTracked sqrt engine)[i]? = some (some ball) := by
  unfold UpdateTracked collisionPassTracked
  apply foldl_collideAtTracked_keeps_held sqrt i ball hheld
  rw [List.getElem?_map, integrationPass_getElem?, hb]
  simp only [Option.map_some', updateBall, integrate_held _ _ hheld, hconf]

/-! ### The two readings of the collision loops agree -/

lemma resolvePairTracked_of_resolvePair (sqrt : K → K) (ballA ballB : BallStruct K)
    (r : BallStruct K × BallStruct K) (h : resolvePair sqrt ballA ballB = some r) :
    resolvePairTracked sqrt ballA ballB = (some r.1, some r.2) := by
  unfold resolvePair at h
  unfold resolvePairTracked
  cases hn : glmNormalize sqrt (ballB.position.sub ballA.position) <;>
    simp only [hn, Option.map_none', Option.map_some'] at h ⊢ <;>
    split_ifs at h ⊢ <;> simp_all <;> subst h <;> simp

lemma collideAtTracked_of_collideAt (sqrt : K → K) (balls balls' : List (BallStruct K))
    (ij : Nat × Nat) (h : collideAt sqrt balls ij = some balls') :
    collideAtTracked sqrt (balls.map some) ij = balls'.map some := by
  unfold collideAt at h
  unfold collideAtTracked
  simp only [List.getElem?_map]
  cases hA : balls[ij.1]? with
  | none =>
    simp only [hA] at h
    simp only [Option.some.injEq] at h
    simp [h]
  | some ballA =>
    cases hB : balls[ij.2]? with
    | none =>
      simp only [hA, hB] at h
      simp only [Option.some.injEq] at h
      simp [h]
    | some ballB =>
      simp only [hA, hB, Option.map_eq_some'] at h
      obtain ⟨r, hr, rfl⟩ := h
      simp [resolvePairTracked_of_resolvePair sqrt ballA ballB r hr, List.map_set]

lemma foldl_collideAtTracked_of_foldlM (sqrt : K → K) :
    ∀ (pairs : List (Nat × Nat)) (balls balls' : List (BallStruct K)),
      pairs.foldlM (collideAt sqrt) balls = some balls' →
      pairs.foldl (collideAtTracked sqrt) (balls.map some) = balls'.map some
  | [], balls, balls', h => by
    simp only [List.foldlM_nil, Option.pure_def, Option.some.injEq] at h
    simp [h]
  | ij :: pairs, balls, balls', h => by
    rw [List.foldlM_cons] at h
    cases h1 : collideAt sqrt balls ij with
    | none => simp [h1] at h
    | some mid =>
      simp only [h1, Option.some_bind, Option.bind_eq_bind] at h
      rw [List.foldl_cons, collideAtTracked_of_collideAt sqrt balls mid ij h1]
      exact foldl_collideAtTracked_of_foldlM sqrt pairs mid balls' h

/-- When the tick writes no NaN (`Update` answers `some`), the bodies tracked
one by one are the bodies it answers. -/
lemma UpdateTracked_of_Update (sqrt : K → K) (engine engine' : BallEngine K)
    (h : Update sqrt engine = some engine') :
    UpdateTracked sqrt engine = engine'.balls.map some := by
  unfold Update at h
  simp only [Option.map_eq_some'] at h
  obtain ⟨balls', h1, rfl⟩ := h
  unfold UpdateTracked collisionPassTracked
  unfold collisionPass at h1
  rw [List.length_map]
  exact foldl_collideAtTracked_of_foldlM sqrt _ _ _ h1

end TrackedLemmas

section HeldTheorems

variable {K : Type} [LinearOrderedField K]

/-- C11 (counterexample): a world with bounds `(800, 600)`, the default forces
and one dragged body at `(200, 590)` with velocity `(0, 5)` (a body pressed
while falling keeps its velocity).  The body is not integrated, but the
bottom-edge rule is outside the `isBeingDragged` test and fires: after the
tick the body is at `(200, 584)` with velocity `(0, -2.25)`. -/
theorem update_confines_dragged_body :
    Update Real.sqrt (⟨[⟨⟨200, 590⟩, ⟨0, 5⟩, true⟩],
        [⟨"Gravity", ⟨0, 0.5⟩⟩, ⟨"Wind", ⟨0, 0⟩⟩], ⟨⟨800, 600⟩⟩⟩ : BallEngine ℝ) =
      some ⟨[⟨⟨200, 584⟩, ⟨0, -2.25⟩, true⟩],
        [⟨"Gravity", ⟨0, 0.5⟩⟩, ⟨"Wind", ⟨0, 0⟩⟩], ⟨⟨800, 600⟩⟩⟩ ∧
    (⟨200, 584⟩ : Vec2 ℝ) ≠ ⟨200, 590⟩ ∧ (⟨0, -2.25⟩ : Vec2 ℝ) ≠ ⟨0, 5⟩ := by
  have hP : pairIndices 1 = [] := by decide
  refine ⟨?_, by norm_num, by norm_num⟩
  unfold Update
  simp only [collisionPass, integrationPass, List.length_map, List.length_cons,
    List.length_nil, Nat.zero_add, hP, List.foldlM_nil]
  norm_num [updateBall, integrate, confine, bottomEdge, topEdge, leftEdge, rightEdge,
    BALL_RADIUS, VELO_DAMPIN]

/-- C11 (amended): a dragged body for which none of the four edge conditions
holds (it is not at or beyond an edge with its velocity pointing outward
there) is returned by one tick with position and velocity unchanged, whatever
the forces and whatever the other bodies: no force is added to it, it is not
integrated, confinement leaves it, and no collision moves it or changes its
velocity.  This holds with NaN tracked per body, and so for the tick that
writes no NaN. -/
theorem update_keeps_dragged_body (sqrt : K → K) (engine : BallEngine K) (i : Nat)
    (ball : BallStruct K) (hb : engine.balls[i]? = some ball)
    (hheld : ball.isBeingDragged = true)
    (h1 : ¬ (ball.position.y ≥ (engine.settings.bounds.y : K) - BALL_RADIUS / 2 ∧
      ball.velocity.y > 0))
    (h2 : ¬ (ball.position.y ≤ BALL_RADIUS / 2 ∧ ball.velocity.y < 0))
    (h3 : ¬ (ball.position.x ≤ BALL_RADIUS / 2 ∧ ball.velocity.x < 0))
    (h4 : ¬ (ball.position.x ≥ (engine.settings.bounds.x : K) - BALL_RADIUS / 2 ∧
      ball.velocity.x > 0)) :
    (UpdateTracked sqrt engine)[i]? = some (some ball) ∧
    ∀ engine', Update sqrt engine = some engine' → engine'.balls[i]? = some ball := by
  have ht := UpdateTracked_keeps_held sqrt engine i ball hb hheld
    (confine_eq_self _ _ h1 h2 h3 h4)
  refine ⟨ht, ?_⟩
  intro engine' h
  rw [UpdateTracked_of_Update sqrt engine engine' h, List.getElem?_map] at ht
  cases hg : engine'.balls[i]? with
  | none => simp [hg] at ht
  | some b =>
    simp only [hg, Option.map_some', Option.some.injEq] at ht
    rw [ht]

/-- C11, witness: bounds `(800, 600)`, a dragged body at `(300, 300)` that
still has velocity `(3, -2)`, overlapped by a body that is not dragged at
`(330, 300)`. -/
theorem update_keeps_dragged_body_witness :
    (UpdateTracked Real.sqrt (⟨[⟨⟨300, 300⟩, ⟨3, -2⟩, true⟩, ⟨⟨330, 300⟩, ⟨0, 0⟩, false⟩],
        [⟨"Gravity", ⟨0, 0.5⟩⟩, ⟨"Wind", ⟨0, 0⟩⟩], ⟨⟨800, 600⟩⟩⟩ : BallEngine ℝ))[0]? =
      some (some ⟨⟨300, 300⟩, ⟨3, -2⟩, true⟩) ∧
    ∀ engine', Update Real.sqrt (⟨[⟨⟨300, 300⟩, ⟨3, -2⟩, true⟩,
        ⟨⟨330, 300⟩, ⟨0, 0⟩, false⟩],
        [⟨"Gravity", ⟨0, 0.5⟩⟩, ⟨"Wind", ⟨0, 0⟩⟩], ⟨⟨800, 600⟩⟩⟩ : BallEngine ℝ) =
        some engine' →
      engine'.balls[0]? = some ⟨⟨300, 300⟩, ⟨3, -2⟩, true⟩ :=
  update_keeps_dragged_body Real.sqrt
    (⟨[⟨⟨300, 300⟩, ⟨3, -2⟩, true⟩, ⟨⟨330, 300⟩, ⟨0, 0⟩, false⟩],
      [⟨"Gravity", ⟨0, 0.5⟩⟩, ⟨"Wind", ⟨0, 0⟩⟩], ⟨⟨800, 600⟩⟩⟩ : BallEngine ℝ)
    0 ⟨⟨300, 300⟩, ⟨3, -2⟩, true⟩ rfl rfl
    (by norm_num [BALL_RADIUS]) (by norm_num [BALL_RADIUS])
    (by norm_num [BALL_RADIUS]) (by norm_num [BALL_RADIUS])

/-- C18: a dragged body whose velocity is `(0, 0)` (the state `mouseDrag`
leaves it in) is returned by one full tick with the same position, velocity
and `isBeingDragged`, in every world: any number of bodies, any bounds, any
forces, the other bodies anywhere, overlapping or coincident with it.  This
holds with NaN tracked per body (a coincident body that is not dragged
receives NaN, the dragged body does not), and so for the tick that writes no
NaN. -/
theorem update_keeps_dragged_body_at_rest (sqrt : K → K) (engine : BallEngine K) (i : Nat)
    (ball : BallStruct K) (hb : engine.balls[i]? = some ball)
    (hheld : ball.isBeingDragged = true) (hv : ball.velocity = ⟨0, 0⟩) :
    (UpdateTracked sqrt engine)[i]? = some (some ball) ∧
    ∀ engine', Update sqrt engine = some engine' → engine'.balls[i]? = some ball := by
  have hc : confine engine.settings.bounds ball = ball := by
    apply confine_eq_self <;> rw [hv] <;> rintro ⟨_, h⟩ <;> exact lt_irrefl _ h
  have ht := UpdateTracked_keeps_held sqrt engine i ball hb hheld hc
  refine ⟨ht, ?_⟩
  intro engine' h
  rw [UpdateTracked_of_Update sqrt engine engine' h, List.getElem?_map] at ht
  cases hg : engine'.balls[i]? with
  | none => simp [hg] at ht
  | some b =>
    simp only [hg, Option.map_some', Option.some.injEq] at ht
    rw [ht]

/-- C18, witness: bounds `(800, 600)`, a dragged body at rest at `(600, 584)`
and a body that is not dragged resting on the floor at the same point.  After
the first loop the two centres coincide; the collision loops write NaN into the
second body and leave the dragged one as it was. -/
theorem update_keeps_dragged_body_at_rest_witness :
    UpdateTracked Real.sqrt (⟨[⟨⟨600, 584⟩, ⟨0, 0⟩, true⟩, ⟨⟨600, 584⟩, ⟨0, 0⟩, false⟩],
        [⟨"Gravity", ⟨0, 0.5⟩⟩, ⟨"Wind", ⟨0, 0⟩⟩], ⟨⟨800, 600⟩⟩⟩ : BallEngine ℝ) =
      [some ⟨⟨600, 584⟩, ⟨0, 0⟩, true⟩, none] ∧
    (UpdateTracked Real.sqrt (⟨[⟨⟨600, 584⟩, ⟨0, 0⟩, true⟩, ⟨⟨600, 584⟩, ⟨0, 0⟩, false⟩],
        [⟨"Gravity", ⟨0, 0.5⟩⟩, ⟨"Wind", ⟨0, 0⟩⟩], ⟨⟨800, 600⟩⟩⟩ : BallEngine ℝ))[0]? =
      some (some ⟨⟨600, 584⟩, ⟨0, 0⟩, true⟩) := by
  have h := (update_keeps_dragged_body_at_rest Real.sqrt
    (⟨[⟨⟨600, 584⟩, ⟨0, 0⟩, true⟩, ⟨⟨600, 584⟩, ⟨0, 0⟩, false⟩],
      [⟨"Gravity", ⟨0, 0.5⟩⟩, ⟨"Wind", ⟨0, 0⟩⟩], ⟨⟨800, 600⟩⟩⟩ : BallEngine ℝ)
    0 ⟨⟨600, 584⟩, ⟨0, 0⟩, true⟩ rfl rfl rfl).1
  refine ⟨?_, h⟩
  have hI : integrationPass (⟨[⟨⟨600, 584⟩, ⟨0, 0⟩, true⟩, ⟨⟨600, 584⟩, ⟨0, 0⟩, false⟩],
        [⟨"Gravity", ⟨0, 0.5⟩⟩, ⟨"Wind", ⟨0, 0⟩⟩], ⟨⟨800, 600⟩⟩⟩ : BallEngine ℝ) =
      [⟨⟨600, 584⟩, ⟨0, 0⟩, true⟩, ⟨⟨600, 584⟩, ⟨0, -0.225⟩, false⟩] := by
    norm_num [integrationPass, updateBall, integrate, confine, bottomEdge,
      topEdge, leftEdge, rightEdge, Vec2.add, BALL_RADIUS, VELO_DAMPIN]
  have hP : pairIndices 2 = [(0, 1)] := by decide
  have hd : glmLength Real.sqrt ((⟨600, 584⟩ : Vec2 ℝ).sub ⟨600, 584⟩) = 0 := by
    have := glmDistance_mk_horizontal real_isSqrt (600 : ℝ) 600 584 le_rfl
    rw [glmDistance] at this
    rw [this]
    norm_num
  have hn := glmNormalize_of_zero Real.sqrt _ hd
  unfold UpdateTracked collisionPassTracked
  rw [hI]
  simp [hP, collideAtTracked, resolvePairTracked, hd, hn, BALL_RADIUS]

end HeldTheorems

/-! ## The program in binary32: lemmas -/

section Binary32Lemmas

lemma F32.le_of_lt (a b : F32) (h : F32.lt a b = true) : F32.le a b = true := by
  cases a with
  | fin p =>
    cases b with
    | fin q =>
      simp only [F32.lt, decide_eq_true_eq] at h
      simp only [F32.le, decide_eq_true_eq]
      exact h.le
    | inf m => simpa [F32.lt, F32.le] using h
    | nan => simp [F32.lt] at h
  | inf n =>
    cases b with
    | fin q => simpa [F32.lt, F32.le] using h
    | inf m => cases n <;> cases m <;> simp_all [F32.lt, F32.le]
    | nan => simp [F32.lt] at h
  | nan => cases b <;> simp [F32.lt] at h

lemma F32.le_of_not_lt (a b : F32) (ha : a ≠ F32.nan) (hb : b ≠ F32.nan)
    (h : F32.lt a b = false) : F32.le b a = true := by
  cases a with
  | fin p =>
    cases b with
    | fin q =>
      simp only [F32.lt, decide_eq_false_iff_not, not_lt] at h
      simp only [F32.le, decide_eq_true_eq]
      exact h
    | inf m => cases m <;> simp_all [F32.lt, F32.le]
    | nan => exact absurd rfl hb
  | inf n =>
    cases b with
    | fin q => cases n <;> simp_all [F32.lt, F32.le]
    | inf m => cases n <;> cases m <;> simp_all [F32.lt, F32.le]
    | nan => exact absurd rfl hb
  | nan => exact absurd rfl ha

lemma F32.not_le_of_lt (a b : F32) (h : F32.lt a b = true) : F32.le b a = false := by
  cases a with
  | fin p =>
    cases b with
    | fin q =>
      simp only [F32.lt, decide_eq_true_eq] at h
      simp only [F32.le, decide_eq_false_iff_not, not_le]
      exact h
    | inf m => cases m <;> simp_all [F32.lt, F32.le]
    | nan => simp [F32.lt] at h
  | inf n =>
    cases b with
    | fin q => cases n <;> simp_all [F32.lt, F32.le]
    | inf m => cases n <;> cases m <;> simp_all [F32.lt, F32.le]
    | nan => simp [F32.lt] at h
  | nan => cases b <;> simp [F32.lt] at h

lemma F32.round_ne_nan (q : ℚ) : F32.round q ≠ F32.nan := by
  unfold F32.round
  dsimp only
  split_ifs <;> simp

lemma F32.minDistance_eq : F32.mul (F32.ofInt 2) Binary32.BALL_RADIUS = F32.fin 64 := by
  decide!

lemma F32.halfRadius_eq : F32.mul Binary32.BALL_RADIUS (F32.fin (1 / 2)) = F32.fin 16 := by
  decide!

namespace Binary32

lemma glmDistance_eq (a b : Vec2 F32) : glmDistance a b = computedDistance a b := rfl

lemma glmNormalize_eq (a b : Vec2 F32) : glmNormalize (vsub b a) = computedNormal a b := rfl

lemma glmReflect_eq (v n : Vec2 F32) : glmReflect v n = computedMirror v n := rfl

lemma b32_resolvePair_far (ballA ballB : BallStruct F32)
    (h : F32.lt (computedDistance ballA.position ballB.position) (F32.fin 64) = false) :
    resolvePair ballA ballB = (ballA, ballB) := by
  unfold resolvePair
  simp only [F32.minDistance_eq]
  rw [← glmDistance_eq] at h
  unfold glmDistance at h
  simp [h]

lemma b32_collideAt_far (balls : List (BallStruct F32)) (i j : Nat)
    (h : ∀ (hi : i < balls.length) (hj : j < balls.length),
      F32.lt (computedDistance balls[i].position balls[j].position) (F32.fin 64) = false) :
    collideAt balls (i, j) = balls := by
  unfold collideAt
  by_cases hi : i < balls.length
  · by_cases hj : j < balls.length
    · simp [List.getElem?_eq_getElem hi, List.getElem?_eq_getElem hj,
        b32_resolvePair_far _ _ (h hi hj), PhysicsEngine.set_getElem_same]
    · simp [List.getElem?_eq_none (not_lt.mp hj)]
  · simp [List.getElem?_eq_none (not_lt.mp hi)]

lemma foldl_fixed {α β : Type} (f : α → β → α) (a : α) :
    ∀ l : List β, (∀ p ∈ l, f a p = a) → l.foldl f a = a
  | [], _ => rfl
  | p :: l, h => by
    rw [List.foldl_cons, h p (List.mem_cons_self _ _)]
    exact foldl_fixed f a l fun q hq => h q (List.mem_cons_of_mem _ hq)

/-- When the computed distance of every pair the loops visit is not below
`64`, the collision loops change nothing. -/
lemma b32_collisionPass_far (balls : List (BallStruct F32))
    (h : ∀ (i j : Nat) (hi : i < balls.length) (hj : j < balls.length), i < j →
      F32.lt (computedDistance balls[i].position balls[j].position) (F32.fin 64) = false) :
    collisionPass balls = balls := by
  unfold collisionPass
  apply foldl_fixed
  rintro ⟨i, j⟩ hp
  have hij := (mem_pairIndices _ _ _).mp hp
  exact b32_collideAt_far balls i j fun hi hj => h i j hi hj hij.1

lemma b32_far_of_two (b0 b1 : BallStruct F32)
    (h : F32.lt (computedDistance b0.position b1.position) (F32.fin 64) = false) :
    ∀ (j k : Nat) (hj : j < [b0, b1].length) (hk : k < [b0, b1].length), j < k →
      F32.lt (computedDistance [b0, b1][j].position [b0, b1][k].position) (F32.fin 64)
        = false := by
  intro j k hj hk hjk
  simp only [List.length_cons, List.length_nil] at hj hk
  have hj0 : j = 0 := by omega
  have hk1 : k = 1 := by omega
  subst hj0 hk1
  exact h

lemma negDamping_eq : F32.neg VELO_DAMPIN = F32.fin (-7549747 / 16777216) := by
  decide!

lemma squareDamping_eq :
    F32.mul (F32.neg VELO_DAMPIN) VELO_DAMPIN = F32.fin (-1698693 / 8388608) := by
  decide!

lemma F32_lt_asymm (a b : F32) (h : F32.lt a b = true) : F32.lt b a = false := by
  cases a with
  | fin p =>
    cases b with
    | fin q =>
      simp only [F32.lt, decide_eq_true_eq] at h
      simp only [F32.lt, decide_eq_false_iff_not, not_lt]
      exact h.le
    | inf m => cases m <;> simp_all [F32.lt]
    | nan => simp [F32.lt] at h
  | inf n =>
    cases b with
    | fin q => cases n <;> simp_all [F32.lt]
    | inf m => cases n <;> cases m <;> simp_all [F32.lt]
    | nan => simp [F32.lt] at h
  | nan => cases b <;> simp [F32.lt] at h

lemma b32_leftEdge_y (ball : BallStruct F32) :
    (leftEdge ball).position.y = ball.position.y ∧
    (leftEdge ball).velocity.y = ball.velocity.y := by
  unfold leftEdge
  split_ifs <;> simp

lemma b32_rightEdge_y (bounds : IVec2) (ball : BallStruct F32) :
    (rightEdge bounds ball).position.y = ball.position.y ∧
    (rightEdge bounds ball).velocity.y = ball.velocity.y := by
  unfold rightEdge
  split_ifs <;> simp

lemma b32_leftEdge_x_congr (b c : BallStruct F32) (hp : b.position.x = c.position.x)
    (hv : b.velocity.x = c.velocity.x) :
    (leftEdge b).position.x = (leftEdge c).position.x ∧
    (leftEdge b).velocity.x = (leftEdge c).velocity.x := by
  unfold leftEdge
  rw [hp, hv]
  split_ifs <;> simp [hp, hv]

lemma b32_rightEdge_x_congr (bounds : IVec2) (b c : BallStruct F32)
    (hp : b.position.x = c.position.x) (hv : b.velocity.x = c.velocity.x) :
    (rightEdge bounds b).position.x = (rightEdge bounds c).position.x ∧
    (rightEdge bounds b).velocity.x = (rightEdge bounds c).velocity.x := by
  unfold rightEdge
  rw [hp, hv]
  split_ifs <;> simp [hp, hv]

lemma b32_bottomEdge_x (bounds : IVec2) (ball : BallStruct F32) :
    (bottomEdge bounds ball).position.x = ball.position.x ∧
    (bottomEdge bounds ball).velocity.x = ball.velocity.x := by
  unfold bottomEdge
  split_ifs <;> simp

lemma b32_topEdge_x (ball : BallStruct F32) :
    (topEdge ball).position.x = ball.position.x ∧
    (topEdge ball).velocity.x = ball.velocity.x := by
  unfold topEdge
  split_ifs <;> simp

lemma b32_confine_x (bounds : IVec2) (ball : BallStruct F32) :
    (confine bounds ball).position.x = (rightEdge bounds (leftEdge ball)).position.x ∧
    (confine bounds ball).velocity.x = (rightEdge bounds (leftEdge ball)).velocity.x := by
  unfold confine
  have h1 := b32_bottomEdge_x bounds ball
  have h2 := b32_topEdge_x (bottomEdge bounds ball)
  have h3 := b32_leftEdge_x_congr (topEdge (bottomEdge bounds ball)) ball
    (h2.1.trans h1.1) (h2.2.trans h1.2)
  exact b32_rightEdge_x_congr bounds _ _ h3.1 h3.2

lemma b32_confine_y (bounds : IVec2) (ball : BallStruct F32) :
    (confine bounds ball).position.y = (topEdge (bottomEdge bounds ball)).position.y ∧
    (confine bounds ball).velocity.y = (topEdge (bottomEdge bounds ball)).velocity.y := by
  unfold confine
  have h1 := b32_rightEdge_y bounds (leftEdge (topEdge (bottomEdge bounds ball)))
  have h2 := b32_leftEdge_y (topEdge (bottomEdge bounds ball))
  exact ⟨h1.1.trans h2.1, h1.2.trans h2.2⟩

lemma b32_bottomEdge_cases (bounds : IVec2) (ball : BallStruct F32) :
    (F32.ge ball.position.y (F32.sub (F32.ofInt bounds.y) (F32.fin 16)) = true ∧
      F32.gt ball.velocity.y (F32.fin 0) = true ∧
      (bottomEdge bounds ball).position.y = F32.sub (F32.ofInt bounds.y) (F32.fin 16) ∧
      (bottomEdge bounds ball).velocity.y =
        F32.mul ball.velocity.y (F32.fin (-7549747 / 16777216))) ∨
    (¬ (F32.ge ball.position.y (F32.sub (F32.ofInt bounds.y) (F32.fin 16)) = true ∧
        F32.gt ball.velocity.y (F32.fin 0) = true) ∧
      bottomEdge bounds ball = ball) := by
  unfold bottomEdge
  simp only [F32.halfRadius_eq, negDamping_eq]
  by_cases c1 : F32.ge ball.position.y (F32.sub (F32.ofInt bounds.y) (F32.fin 16)) = true
  · by_cases c2 : F32.gt ball.velocity.y (F32.fin 0) = true
    · exact Or.inl ⟨c1, c2, by simp [c1, c2], by simp [c1, c2]⟩
    · exact Or.inr ⟨fun h => c2 h.2, by simp [c2]⟩
  · exact Or.inr ⟨fun h => c1 h.1, by simp [c1]⟩

lemma b32_topEdge_cases (ball : BallStruct F32) :
    (F32.le ball.position.y (F32.fin 16) = true ∧
      F32.lt ball.velocity.y (F32.fin 0) = true ∧
      (topEdge ball).position.y = F32.fin 16 ∧ (topEdge ball).velocity.y = F32.fin 0) ∨
    (¬ (F32.le ball.position.y (F32.fin 16) = true ∧
        F32.lt ball.velocity.y (F32.fin 0) = true) ∧
      topEdge ball = ball) := by
  unfold topEdge
  simp only [F32.halfRadius_eq]
  by_cases c1 : F32.le ball.position.y (F32.fin 16) = true
  · by_cases c2 : F32.lt ball.velocity.y (F32.fin 0) = true
    · exact Or.inl ⟨c1, c2, by simp [c1, c2], by simp [c1, c2]⟩
    · exact Or.inr ⟨fun h => c2 h.2, by simp [c2]⟩
  · exact Or.inr ⟨fun h => c1 h.1, by simp [c1]⟩

lemma b32_leftEdge_cases (ball : BallStruct F32) :
    (F32.le ball.position.x (F32.fin 16) = true ∧
      F32.lt ball.velocity.x (F32.fin 0) = true ∧
      (leftEdge ball).position.x = F32.fin 16 ∧
      (leftEdge ball).velocity.x =
        F32.mul ball.velocity.x (F32.fin (-1698693 / 8388608))) ∨
    (¬ (F32.le ball.position.x (F32.fin 16) = true ∧
        F32.lt ball.velocity.x (F32.fin 0) = true) ∧
      leftEdge ball = ball) := by
  unfold leftEdge
  simp only [F32.halfRadius_eq, squareDamping_eq]
  by_cases c1 : F32.le ball.position.x (F32.fin 16) = true
  · by_cases c2 : F32.lt ball.velocity.x (F32.fin 0) = true
    · exact Or.inl ⟨c1, c2, by simp [c1, c2], by simp [c1, c2]⟩
    · exact Or.inr ⟨fun h => c2 h.2, by simp [c2]⟩
  · exact Or.inr ⟨fun h => c1 h.1, by simp [c1]⟩

lemma b32_rightEdge_cases (bounds : IVec2) (ball : BallStruct F32) :
    (F32.ge ball.position.x (F32.sub (F32.ofInt bounds.x) (F32.fin 16)) = true ∧
      F32.gt ball.velocity.x (F32.fin 0) = true ∧
      (rightEdge bounds ball).position.x = F32.sub (F32.ofInt bounds.x) (F32.fin 16) ∧
      (rightEdge bounds ball).velocity.x =
        F32.mul ball.velocity.x (F32.fin (-1698693 / 8388608))) ∨
    (¬ (F32.ge ball.position.x (F32.sub (F32.ofInt bounds.x) (F32.fin 16)) = true ∧
        F32.gt ball.velocity.x (F32.fin 0) = true) ∧
      rightEdge bounds ball = ball) := by
  unfold rightEdge
  simp only [F32.halfRadius_eq, squareDamping_eq]
  by_cases c1 : F32.ge ball.position.x (F32.sub (F32.ofInt bounds.x) (F32.fin 16)) = true
  · by_cases c2 : F32.gt ball.velocity.x (F32.fin 0) = true
    · exact Or.inl ⟨c1, c2, by simp [c1, c2], by simp [c1, c2]⟩
    · exact Or.inr ⟨fun h => c2 h.2, by simp [c2]⟩
  · exact Or.inr ⟨fun h => c1 h.1, by simp [c1]⟩

/-! ### The tick in binary32 -/

lemma computedVelocity_eq (forces : List (BallForce F32)) (v : Vec2 F32) :
    forces.foldl (fun w force => vadd w force.velocity) v = computedVelocity forces v := rfl

lemma b32_integrate_free (forces : List (BallForce F32)) (ball : BallStruct F32)
    (h : ball.isBeingDragged = false) :
    integrate forces ball =
      ⟨computedPosition forces ball.position ball.velocity,
       computedVelocity forces ball.velocity, false⟩ := by
  unfold integrate
  simp only [h, Bool.not_false, if_true]
  rfl

lemma b32_Update_of_far (engine : BallEngine F32)
    (hfar : ∀ (j k : Nat) (hj : j < (integrationPass engine).length)
      (hk : k < (integrationPass engine).length), j < k →
      F32.lt (computedDistance (integrationPass engine)[j].position
        (integrationPass engine)[k].position) (F32.fin 64) = false) :
    (Update engine).balls = integrationPass engine := by
  unfold Update
  exact b32_collisionPass_far _ hfar

lemma b32_Update_getElem? (engine : BallEngine F32) (i : Nat) (hi : i < engine.balls.length)
    (hfar : ∀ (j k : Nat) (hj : j < (integrationPass engine).length)
      (hk : k < (integrationPass engine).length), j < k →
      F32.lt (computedDistance (integrationPass engine)[j].position
        (integrationPass engine)[k].position) (F32.fin 64) = false) :
    (Update engine).balls[i]? =
      some (confine engine.settings.bounds (integrate engine.forces engine.balls[i])) := by
  rw [b32_Update_of_far engine hfar]
  simp [integrationPass, List.getElem?_eq_getElem hi, updateBall]

/-- A body strictly inside the interval on both axes passes confinement
unchanged. -/
lemma b32_confine_of_inside (bounds : IVec2) (ball : BallStruct F32)
    (hx1 : F32.lt (F32.fin 16) ball.position.x = true)
    (hx2 : F32.lt ball.position.x (F32.sub (F32.ofInt bounds.x) (F32.fin 16)) = true)
    (hy1 : F32.lt (F32.fin 16) ball.position.y = true)
    (hy2 : F32.lt ball.position.y (F32.sub (F32.ofInt bounds.y) (F32.fin 16)) = true) :
    confine bounds ball = ball := by
  have e1 : bottomEdge bounds ball = ball := by
    rcases b32_bottomEdge_cases bounds ball with ⟨c, _⟩ | ⟨_, e⟩
    · unfold F32.ge at c
      rw [F32.not_le_of_lt _ _ hy2] at c
      exact absurd c (by decide)
    · exact e
  have e2 : topEdge ball = ball := by
    rcases b32_topEdge_cases ball with ⟨c, _⟩ | ⟨_, e⟩
    · rw [F32.not_le_of_lt _ _ hy1] at c
      exact absurd c (by decide)
    · exact e
  have e3 : leftEdge ball = ball := by
    rcases b32_leftEdge_cases ball with ⟨c, _⟩ | ⟨_, e⟩
    · rw [F32.not_le_of_lt _ _ hx1] at c
      exact absurd c (by decide)
    · exact e
  have e4 : rightEdge bounds ball = ball := by
    rcases b32_rightEdge_cases bounds ball with ⟨c, _⟩ | ⟨_, e⟩
    · unfold F32.ge at c
      rw [F32.not_le_of_lt _ _ hx2] at c
      exact absurd c (by decide)
    · exact e
  unfold confine
  rw [e1, e2, e3, e4]

lemma b32_mouseDownScan_none (mouse : Vec2 F32) :
    ∀ (balls : List (BallStruct F32)) (idx : Nat),
      (∀ ball ∈ balls,
        F32.lt (computedDistance ball.position mouse) (F32.fin 32) = false) →
      mouseDownScan mouse idx balls = none
  | [], _, _ => rfl
  | ball :: rest, idx, h => by
    have h0 : F32.lt (glmDistance ball.position mouse) BALL_RADIUS = false :=
      h ball (List.mem_cons_self _ _)
    have ih := b32_mouseDownScan_none mouse rest (idx + 1)
      fun b hb => h b (List.mem_cons_of_mem _ hb)
    simp [mouseDownScan, h0, ih]

lemma b32_mouseDownScan_first (mouse : Vec2 F32) :
    ∀ (balls : List (BallStruct F32)) (idx i : Nat) (hi : i < balls.length),
      F32.lt (computedDistance balls[i].position mouse) (F32.fin 32) = true →
      (∀ (j : Nat) (hj : j < i),
        F32.lt (computedDistance (balls[j]).position mouse) (F32.fin 32) = false) →
      mouseDownScan mouse idx balls =
        some (balls.set i { balls[i] with isBeingDragged := true }, idx + i)
  | [], _, _, hi, _, _ => absurd hi (Nat.not_lt_zero _)
  | ball :: rest, idx, 0, _, hhit, _ => by
    simp only [List.getElem_cons_zero] at hhit
    have h0 : F32.lt (glmDistance ball.position mouse) BALL_RADIUS = true := hhit
    simp [mouseDownScan, h0]
  | ball :: rest, idx, i + 1, hi, hhit, hbefore => by
    have h0 := hbefore 0 (Nat.succ_pos i)
    simp only [List.getElem_cons_zero] at h0
    have h0' : F32.lt (glmDistance ball.position mouse) BALL_RADIUS = false := h0
    simp only [List.getElem_cons_succ] at hhit
    have ih := b32_mouseDownScan_first mouse rest (idx + 1) i
      (Nat.lt_of_succ_lt_succ hi) hhit
      (fun j hj => by
        have := hbefore (j + 1) (Nat.succ_lt_succ hj)
        simpa only [List.getElem_cons_succ] using this)
    simp only [mouseDownScan, h0', Bool.false_eq_true, if_false, ih, Option.map_some',
      List.getElem_cons_succ, List.set_cons_succ]
    congr 2
    omega

lemma b32_mouseDownScan_again (mouse : Vec2 F32) :
    ∀ (balls : List (BallStruct F32)) (idx : Nat) (r : List (BallStruct F32) × Nat),
      mouseDownScan mouse idx balls = some r →
      mouseDownScan mouse idx r.1 = some r
  | [], _, _, h => by simp [mouseDownScan] at h
  | ball :: rest, idx, r, h => by
    cases h0 : F32.lt (glmDistance ball.position mouse) BALL_RADIUS
    · simp only [mouseDownScan, h0, Bool.false_eq_true, if_false, Option.map_eq_some'] at h
      obtain ⟨q, hq, rfl⟩ := h
      have ih := b32_mouseDownScan_again mouse rest (idx + 1) q hq
      simp [mouseDownScan, h0, ih]
    · simp only [mouseDownScan, h0, if_true, Option.some.injEq] at h
      subst h
      simp [mouseDownScan, h0]

end Binary32

end Binary32Lemmas

/-! ## The program in binary32: theorems -/

section Binary32Theorems

/-- C3 (counterexample): two bodies that are not dragged, with centres
`(16.457204818725586, 18.169588088989258)` and
`(65.2491455078125, 59.58633041381836)`, both binary32 values.  Their exact
distance is at least `64` (the squares of the differences sum to at least
`64 * 64`), but the program computes `63.999996...`, which is below `64`: the
collision branch is taken and the velocity of the first body changes from
`(1, 0)` to `(-0.1624..., -0.9867...)`. -/
theorem collisionPass_binary32_false_positive :
    (64 * 64 : ℚ) ≤
      (534521 / 8192 - 8628315 / 524288) * (534521 / 8192 - 8628315 / 524288) +
      (15620199 / 262144 - 9526097 / 524288) * (15620199 / 262144 - 9526097 / 524288) ∧
    Binary32.computedDistance
      ⟨F32.fin (8628315 / 524288), F32.fin (9526097 / 524288)⟩
      ⟨F32.fin (534521 / 8192), F32.fin (15620199 / 262144)⟩ =
      F32.fin (16777215 / 262144) ∧
    Binary32.collisionPass
      [⟨⟨F32.fin (8628315 / 524288), F32.fin (9526097 / 524288)⟩,
        ⟨F32.fin 1, F32.fin 0⟩, false⟩,
       ⟨⟨F32.fin (534521 / 8192), F32.fin (15620199 / 262144)⟩,
        ⟨F32.fin 0, F32.fin 0⟩, false⟩] =
      [⟨⟨F32.fin (4314157 / 262144), F32.fin (595381 / 32768)⟩,
        ⟨F32.fin (-1362551 / 8388608), F32.fin (-16554423 / 16777216)⟩, false⟩,
       ⟨⟨F32.fin (534521 / 8192), F32.fin (15620199 / 262144)⟩,
        ⟨F32.fin 0, F32.fin 0⟩, false⟩] := by
  decide!

/-- C3 (amended): in a world with any number of bodies in which, for every
pair of distinct bodies (lower index first, as the loops take them), the
distance that the program computes in binary32 is not less than `64`, the
collision loops of `Update` return every body as it was, position and velocity
included. -/
theorem collisionPass_binary32_no_action (balls : List (BallStruct F32))
    (hfar : ∀ (i j : Nat) (hi : i < balls.length) (hj : j < balls.length), i < j →
      F32.lt (Binary32.computedDistance balls[i].position balls[j].position) (F32.fin 64)
        = false) :
    Binary32.collisionPass balls = balls :=
  Binary32.b32_collisionPass_far balls hfar

/-- C3, witness: two bodies `400` apart. -/
theorem collisionPass_binary32_no_action_witness :
    Binary32.collisionPass
      [⟨⟨F32.fin 200, F32.fin 300⟩, ⟨F32.fin 1, F32.fin 2⟩, false⟩,
       ⟨⟨F32.fin 600, F32.fin 300⟩, ⟨F32.fin (-3), F32.fin 0⟩, false⟩] =
      [⟨⟨F32.fin 200, F32.fin 300⟩, ⟨F32.fin 1, F32.fin 2⟩, false⟩,
       ⟨⟨F32.fin 600, F32.fin 300⟩, ⟨F32.fin (-3), F32.fin 0⟩, false⟩] :=
  collisionPass_binary32_no_action _ (Binary32.b32_far_of_two _ _ (by decide!))

/-- C10 (counterexample): the claim's own numbers, `position.y = 595`,
`bounds.y = 600`, `velocity.y = 2`.  Confinement stores
`velocity.y = -7549747 / 8388608 = -0.899999976...`, the binary32 product of
`2` and `-0.45f`, which is neither `-0.9` nor `-0.45 * 2`; `position.y` is
`584`. -/
theorem confine_binary32_bottom_edge_inexact :
    Binary32.confine ⟨800, 600⟩ ⟨⟨F32.fin 200, F32.fin 595⟩, ⟨F32.fin 0, F32.fin 2⟩, false⟩ =
      ⟨⟨F32.fin 200, F32.fin 584⟩, ⟨F32.fin 0, F32.fin (-7549747 / 8388608)⟩, false⟩ ∧
    (-7549747 / 8388608 : ℚ) ≠ -(9 / 10) ∧
    (-7549747 / 8388608 : ℚ) ≠ -(45 / 100) * 2 := by
  decide!

/-- C10 (amended), bottom-edge rule: a body that enters boundary confinement
with `position.y >= bounds.y - 16` and `velocity.y > 0` (comparisons and the
difference in binary32), where `bounds.y - 16` is not `<= 16` so that the top
rule does not apply as well, leaves it with `velocity.y` replaced by its
binary32 product with `-0.45f = -7549747 / 16777216` and with
`position.y = bounds.y - 16`; its x components are those the left and right
rules produce from the x components it entered with. -/
theorem confine_binary32_bottom_edge (bounds : IVec2) (ball : BallStruct F32)
    (hp : F32.ge ball.position.y (F32.sub (F32.ofInt bounds.y) (F32.fin 16)) = true)
    (hv : F32.gt ball.velocity.y (F32.fin 0) = true)
    (hb : F32.le (F32.sub (F32.ofInt bounds.y) (F32.fin 16)) (F32.fin 16) = false) :
    (Binary32.confine bounds ball).velocity.y =
      F32.mul ball.velocity.y (F32.fin (-7549747 / 16777216)) ∧
    (Binary32.confine bounds ball).position.y = F32.sub (F32.ofInt bounds.y) (F32.fin 16) ∧
    (Binary32.confine bounds ball).position.x =
      (Binary32.rightEdge bounds (Binary32.leftEdge ball)).position.x ∧
    (Binary32.confine bounds ball).velocity.x =
      (Binary32.rightEdge bounds (Binary32.leftEdge ball)).velocity.x := by
  refine ⟨?_, ?_, (Binary32.b32_confine_x bounds ball).1, (Binary32.b32_confine_x bounds ball).2⟩
  · rw [(Binary32.b32_confine_y bounds ball).2]
    rcases Binary32.b32_bottomEdge_cases bounds ball with ⟨_, _, l3, l4⟩ | ⟨l1, _⟩
    · rcases Binary32.b32_topEdge_cases (Binary32.bottomEdge bounds ball) with
        ⟨r1, _, _, _⟩ | ⟨_, r2⟩
      · rw [l3, hb] at r1
        exact absurd r1 (by decide)
      · rw [r2, l4]
    · exact absurd ⟨hp, hv⟩ l1
  · rw [(Binary32.b32_confine_y bounds ball).1]
    rcases Binary32.b32_bottomEdge_cases bounds ball with ⟨_, _, l3, l4⟩ | ⟨l1, _⟩
    · rcases Binary32.b32_topEdge_cases (Binary32.bottomEdge bounds ball) with
        ⟨r1, _, _, _⟩ | ⟨_, r2⟩
      · rw [l3, hb] at r1
        exact absurd r1 (by decide)
      · rw [r2, l3]
    · exact absurd ⟨hp, hv⟩ l1

/-- C10, witness: `position.y = 595`, `bounds.y = 600`, `velocity.y = 2` give
`velocity.y = -7549747 / 8388608` and `position.y = 584`. -/
theorem confine_binary32_bottom_edge_witness :
    (Binary32.confine ⟨800, 600⟩
      ⟨⟨F32.fin 200, F32.fin 595⟩, ⟨F32.fin 0, F32.fin 2⟩, false⟩).velocity.y =
      F32.fin (-7549747 / 8388608) ∧
    (Binary32.confine ⟨800, 600⟩
      ⟨⟨F32.fin 200, F32.fin 595⟩, ⟨F32.fin 0, F32.fin 2⟩, false⟩).position.y =
      F32.fin 584 := by
  have h := confine_binary32_bottom_edge ⟨800, 600⟩
    ⟨⟨F32.fin 200, F32.fin 595⟩, ⟨F32.fin 0, F32.fin 2⟩, false⟩
    (by decide!) (by decide!) (by decide!)
  exact ⟨h.1.trans (by decide!), h.2.1.trans (by decide!)⟩

/-- C16 (counterexample): bounds `(800, 600)` and a body at `x = 10` with
`velocity.x = -4`.  Confinement stores `velocity.x = 1698693 / 2097152 =
0.809999942...`, which is not `0.81 = 0.2025 * 4`: the factor the program
multiplies by is the binary32 product `-0.45f * 0.45f = -1698693 / 8388608`,
not `-0.2025`. -/
theorem confine_binary32_horizontal_inexact :
    Binary32.confine ⟨800, 600⟩ ⟨⟨F32.fin 10, F32.fin 300⟩, ⟨F32.fin (-4), F32.fin 0⟩, false⟩ =
      ⟨⟨F32.fin 16, F32.fin 300⟩, ⟨F32.fin (1698693 / 2097152), F32.fin 0⟩, false⟩ ∧
    (1698693 / 2097152 : ℚ) ≠ 81 / 100 ∧
    F32.mul (F32.neg Binary32.VELO_DAMPIN) Binary32.VELO_DAMPIN =
      F32.fin (-1698693 / 8388608) ∧
    (-1698693 / 8388608 : ℚ) ≠ -(2025 / 10000) := by
  decide!

/-- C16 (amended), horizontal-edge rules, where `bounds.x - 16` is not `<= 16`
(comparisons and the difference in binary32): a body that enters confinement
with `position.x <= 16` and `velocity.x < 0` leaves with `velocity.x` replaced
by its binary32 product with `-1698693 / 8388608` (the binary32 product
`-0.45f * 0.45f`, about `-0.202499986`) and `position.x = 16`; a body that
enters with `position.x >= bounds.x - 16` and `velocity.x > 0` leaves with
`velocity.x` replaced by its product with the same factor and
`position.x = bounds.x - 16`.  The factor is not the single `-0.45f` of the
bottom edge. -/
theorem confine_binary32_horizontal_edges (bounds : IVec2) (ball : BallStruct F32)
    (hbx : F32.le (F32.sub (F32.ofInt bounds.x) (F32.fin 16)) (F32.fin 16) = false) :
    (F32.le ball.position.x (F32.fin 16) = true → F32.lt ball.velocity.x (F32.fin 0) = true →
      (Binary32.confine bounds ball).velocity.x =
        F32.mul ball.velocity.x (F32.fin (-1698693 / 8388608)) ∧
      (Binary32.confine bounds ball).position.x = F32.fin 16) ∧
    (F32.ge ball.position.x (F32.sub (F32.ofInt bounds.x) (F32.fin 16)) = true →
      F32.gt ball.velocity.x (F32.fin 0) = true →
      (Binary32.confine bounds ball).velocity.x =
        F32.mul ball.velocity.x (F32.fin (-1698693 / 8388608)) ∧
      (Binary32.confine bounds ball).position.x =
        F32.sub (F32.ofInt bounds.x) (F32.fin 16)) ∧
    F32.mul (F32.neg Binary32.VELO_DAMPIN) Binary32.VELO_DAMPIN =
      F32.fin (-1698693 / 8388608) ∧
    F32.neg Binary32.VELO_DAMPIN ≠ F32.fin (-1698693 / 8388608) := by
  rw [(Binary32.b32_confine_x bounds ball).1, (Binary32.b32_confine_x bounds ball).2]
  refine ⟨?_, ?_, Binary32.squareDamping_eq, by decide!⟩
  · intro hp hv
    rcases Binary32.b32_leftEdge_cases ball with ⟨_, _, l3, l4⟩ | ⟨l1, _⟩
    · rcases Binary32.b32_rightEdge_cases bounds (Binary32.leftEdge ball) with
        ⟨r1, _, _, _⟩ | ⟨_, r2⟩
      · rw [l3] at r1
        unfold F32.ge at r1
        rw [hbx] at r1
        exact absurd r1 (by decide)
      · rw [r2, l3, l4]
        exact ⟨rfl, rfl⟩
    · exact absurd ⟨hp, hv⟩ l1
  · intro hp hv
    have e1 : Binary32.leftEdge ball = ball := by
      rcases Binary32.b32_leftEdge_cases ball with ⟨_, l2, _, _⟩ | ⟨_, l2⟩
      · have := Binary32.F32_lt_asymm _ _ l2
        unfold F32.gt at hv
        rw [hv] at this
        exact absurd this (by decide)
      · exact l2
    rw [e1]
    rcases Binary32.b32_rightEdge_cases bounds ball with ⟨_, _, r3, r4⟩ | ⟨r1, _⟩
    · rw [r3, r4]
      exact ⟨rfl, rfl⟩
    · exact absurd ⟨hp, hv⟩ r1

/-- C16, witness: bounds `(800, 600)`; a body at `x = 10` with
`velocity.x = -4` leaves at `x = 16` with `velocity.x = 1698693 / 2097152`, and
a body at `x = 790` with `velocity.x = 4` leaves at `x = 784` with
`velocity.x = -1698693 / 2097152`. -/
theorem confine_binary32_horizontal_edges_witness :
    ((Binary32.confine ⟨800, 600⟩
        ⟨⟨F32.fin 10, F32.fin 300⟩, ⟨F32.fin (-4), F32.fin 0⟩, false⟩).velocity.x =
        F32.fin (1698693 / 2097152) ∧
      (Binary32.confine ⟨800, 600⟩
        ⟨⟨F32.fin 10, F32.fin 300⟩, ⟨F32.fin (-4), F32.fin 0⟩, false⟩).position.x =
        F32.fin 16) ∧
    ((Binary32.confine ⟨800, 600⟩
        ⟨⟨F32.fin 790, F32.fin 300⟩, ⟨F32.fin 4, F32.fin 0⟩, false⟩).velocity.x =
        F32.fin (-1698693 / 2097152) ∧
      (Binary32.confine ⟨800, 600⟩
        ⟨⟨F32.fin 790, F32.fin 300⟩, ⟨F32.fin 4, F32.fin 0⟩, false⟩).position.x =
        F32.fin 784) := by
  have h1 := (confine_binary32_horizontal_edges ⟨800, 600⟩
    ⟨⟨F32.fin 10, F32.fin 300⟩, ⟨F32.fin (-4), F32.fin 0⟩, false⟩ (by decide!)).1
    (by decide!) (by decide!)
  have h2 := (confine_binary32_horizontal_edges ⟨800, 600⟩
    ⟨⟨F32.fin 790, F32.fin 300⟩, ⟨F32.fin 4, F32.fin 0⟩, false⟩ (by decide!)).2.1
    (by decide!) (by decide!)
  exact ⟨⟨h1.1.trans (by decide!), h1.2⟩, ⟨h2.1.trans (by decide!), h2.2.trans (by decide!)⟩⟩

/-- C13 (counterexample): one body with centre
`(11.0034818649292, 463.5279235839844)` and the pointer at `(43, 464)`.  The
exact distance is at least `32` (the squares of the differences sum to at
least `32 * 32`), the distance the program computes is `31.999998...`, and
`mouseDown` marks the body as dragged and records it as `currentBall`. -/
theorem mouseDown_binary32_grabs_beyond_radius :
    (32 * 32 : ℚ) ≤
      (43 - 11537987 / 1048576) * (43 - 11537987 / 1048576) +
      (464 - 15188883 / 32768) * (464 - 15188883 / 32768) ∧
    Binary32.computedDistance
      ⟨F32.fin (11537987 / 1048576), F32.fin (15188883 / 32768)⟩
      ⟨F32.ofInt 43, F32.ofInt 464⟩ = F32.fin (16777215 / 524288) ∧
    (Binary32.mouseDown
      ⟨⟨[⟨⟨F32.fin (11537987 / 1048576), F32.fin (15188883 / 32768)⟩,
          ⟨F32.fin 0, F32.fin 0⟩, false⟩], [], ⟨⟨800, 600⟩⟩⟩, none⟩
      ⟨43, 464⟩).engine.balls =
      [⟨⟨F32.fin (11537987 / 1048576), F32.fin (15188883 / 32768)⟩,
        ⟨F32.fin 0, F32.fin 0⟩, true⟩] ∧
    (Binary32.mouseDown
      ⟨⟨[⟨⟨F32.fin (11537987 / 1048576), F32.fin (15188883 / 32768)⟩,
          ⟨F32.fin 0, F32.fin 0⟩, false⟩], [], ⟨⟨800, 600⟩⟩⟩, none⟩
      ⟨43, 464⟩).currentBall = some 0 := by
  decide!

/-- C13 (amended): `mouseDown` at the integer pointer position `pos`, with
"closer than the radius" read as: the distance the program computes in
binary32 from the centre to `pos` is less than `32`.  When no body is closer
the state is unchanged.  Otherwise the body of lowest index among those
closer gets `isBeingDragged = true` and becomes `currentBall`; every other
body, and the position and velocity of the chosen one, stay as they were (so
of two stacked bodies the earlier is chosen).  Repeating the same `mouseDown`
gives the same state again. -/
theorem mouseDown_binary32_selects_first (app : BasicApp F32) (pos : IVec2) :
    ((∀ ball ∈ app.engine.balls,
        F32.lt (Binary32.computedDistance ball.position ⟨F32.ofInt pos.x, F32.ofInt pos.y⟩)
          (F32.fin 32) = false) →
      Binary32.mouseDown app pos = app) ∧
    (∀ (i : Nat) (hi : i < app.engine.balls.length),
      F32.lt (Binary32.computedDistance app.engine.balls[i].position
        ⟨F32.ofInt pos.x, F32.ofInt pos.y⟩) (F32.fin 32) = true →
      (∀ (j : Nat) (hj : j < i),
        F32.lt (Binary32.computedDistance (app.engine.balls[j]).position
          ⟨F32.ofInt pos.x, F32.ofInt pos.y⟩) (F32.fin 32) = false) →
      Binary32.mouseDown app pos =
        { engine :=
            { app.engine with
              balls := app.engine.balls.set i
                { app.engine.balls[i] with isBeingDragged := true } }
          currentBall := some i }) ∧
    Binary32.mouseDown (Binary32.mouseDown app pos) pos = Binary32.mouseDown app pos := by
  refine ⟨?_, ?_, ?_⟩
  · intro h
    simp [Binary32.mouseDown, Binary32.b32_mouseDownScan_none _ _ 0 h]
  · intro i hi hhit hbefore
    simp [Binary32.mouseDown, Binary32.b32_mouseDownScan_first _ _ 0 i hi hhit hbefore]
  · cases h : Binary32.mouseDownScan ⟨F32.ofInt pos.x, F32.ofInt pos.y⟩ 0 app.engine.balls with
    | none =>
      have e : Binary32.mouseDown app pos = app := by simp [Binary32.mouseDown, h]
      rw [e, e]
    | some r =>
      have e : Binary32.mouseDown app pos =
          { engine := { app.engine with balls := r.1 }, currentBall := some r.2 } := by
        simp [Binary32.mouseDown, h]
      rw [e]
      simp [Binary32.mouseDown, Binary32.b32_mouseDownScan_again _ _ 0 r h]

/-- C13, witness: two stacked bodies at `(100, 100)` and `(110, 100)` and the
pointer at `(105, 100)`, at computed distance `5` from both: the body stored
first is chosen and the second is left as it was. -/
theorem mouseDown_binary32_selects_first_witness :
    Binary32.mouseDown
      ⟨⟨[⟨⟨F32.fin 100, F32.fin 100⟩, ⟨F32.fin 1, F32.fin 2⟩, false⟩,
        ⟨⟨F32.fin 110, F32.fin 100⟩, ⟨F32.fin 0, F32.fin 0⟩, false⟩],
      [⟨"Gravity", ⟨F32.fin 0, F32.fin (1 / 2)⟩⟩, ⟨"Wind", ⟨F32.fin 0, F32.fin 0⟩⟩],
      ⟨⟨800, 600⟩⟩⟩, none⟩
      ⟨105, 100⟩ =
    ⟨⟨[⟨⟨F32.fin 100, F32.fin 100⟩, ⟨F32.fin 1, F32.fin 2⟩, true⟩,
        ⟨⟨F32.fin 110, F32.fin 100⟩, ⟨F32.fin 0, F32.fin 0⟩, false⟩],
      [⟨"Gravity", ⟨F32.fin 0, F32.fin (1 / 2)⟩⟩, ⟨"Wind", ⟨F32.fin 0, F32.fin 0⟩⟩],
      ⟨⟨800, 600⟩⟩⟩, some 0⟩ :=
  (mouseDown_binary32_selects_first
    ⟨⟨[⟨⟨F32.fin 100, F32.fin 100⟩, ⟨F32.fin 1, F32.fin 2⟩, false⟩,
        ⟨⟨F32.fin 110, F32.fin 100⟩, ⟨F32.fin 0, F32.fin 0⟩, false⟩],
      [⟨"Gravity", ⟨F32.fin 0, F32.fin (1 / 2)⟩⟩, ⟨"Wind", ⟨F32.fin 0, F32.fin 0⟩⟩],
      ⟨⟨800, 600⟩⟩⟩, none⟩
    ⟨105, 100⟩).2.1 0 (by decide) (by decide!)
    (fun j hj => absurd hj (Nat.not_lt_zero j))

/-- C8 (counterexample), two inputs, each a single body that is not dragged in
a world with bounds `(800, 600)`.  First: both force vectors `(0, 0)`, the body
at `(200, 590)` with velocity `(0, 5)`; integration takes it to `(200, 595)`,
beyond the bottom limit `584` while moving down, so confinement puts it at
`(200, 584)`, not at the old position plus the old velocity.  Second: forces
`(0, 0.5)` and `(0, -0.5)`, which sum to zero, the body at `(200, 20)` with
velocity `(0, 0.25000283...)`; adding `0.5` and then `-0.5` in binary32 turns
the velocity into `0.25000286...`, and the body ends at
`y = 20.250003814...` although the old position plus the old velocity is
`y = 20.250001907...`; no edge rule and no collision is involved. -/
theorem update_binary32_zero_force_not_advanced :
    (Binary32.Update ⟨[⟨⟨F32.fin 200, F32.fin 590⟩, ⟨F32.fin 0, F32.fin 5⟩, false⟩],
        [⟨"Gravity", ⟨F32.fin 0, F32.fin 0⟩⟩, ⟨"Wind", ⟨F32.fin 0, F32.fin 0⟩⟩],
        ⟨⟨800, 600⟩⟩⟩).balls =
      [⟨⟨F32.fin 200, F32.fin 584⟩, ⟨F32.fin 0, F32.fin (-9 / 4)⟩, false⟩] ∧
    F32.add (F32.fin 590) (F32.fin 5) = F32.fin 595 ∧
    (Binary32.Update
      ⟨[⟨⟨F32.fin 200, F32.fin 20⟩, ⟨F32.fin 0, F32.fin (8388703 / 33554432)⟩, false⟩],
        [⟨"Gravity", ⟨F32.fin 0, F32.fin (1 / 2)⟩⟩, ⟨"Wind", ⟨F32.fin 0, F32.fin (-1 / 2)⟩⟩],
        ⟨⟨800, 600⟩⟩⟩).balls =
      [⟨⟨F32.fin 200, F32.fin (5308417 / 262144)⟩,
        ⟨F32.fin 0, F32.fin (262147 / 1048576)⟩, false⟩] ∧
    F32.add (F32.fin 20) (F32.fin (8388703 / 33554432)) = F32.fin (10616833 / 524288) ∧
    (5308417 / 262144 : ℚ) ≠ 10616833 / 524288 ∧
    (1 / 2 : ℚ) + -1 / 2 = 0 := by
  decide!

/-- C8 (amended): for a body that is not dragged, with position `p` and
velocity `v` before the tick, in a world where adding the force vectors to `v`
one after another in binary32 gives `v` again: if the binary32 sum `p + v` lies
strictly inside the confinement interval on both axes (above `16`, below
`bounds - 16`) and after the first loop of `Update` the distance the program
computes for every two bodies is not below `64` (no collision is resolved in
the tick), then after the tick the body's position is the binary32 sum
`p + v`, component by component. -/
theorem update_binary32_zero_force_advances (engine : BallEngine F32) (i : Nat)
    (hi : i < engine.balls.length)
    (hfree : engine.balls[i].isBeingDragged = false)
    (hF : Binary32.computedVelocity engine.forces engine.balls[i].velocity =
      engine.balls[i].velocity)
    (hx1 : F32.lt (F32.fin 16)
      (F32.add engine.balls[i].position.x engine.balls[i].velocity.x) = true)
    (hx2 : F32.lt (F32.add engine.balls[i].position.x engine.balls[i].velocity.x)
      (F32.sub (F32.ofInt engine.settings.bounds.x) (F32.fin 16)) = true)
    (hy1 : F32.lt (F32.fin 16)
      (F32.add engine.balls[i].position.y engine.balls[i].velocity.y) = true)
    (hy2 : F32.lt (F32.add engine.balls[i].position.y engine.balls[i].velocity.y)
      (F32.sub (F32.ofInt engine.settings.bounds.y) (F32.fin 16)) = true)
    (hfar : ∀ (j k : Nat) (hj : j < (Binary32.integrationPass engine).length)
      (hk : k < (Binary32.integrationPass engine).length), j < k →
      F32.lt (Binary32.computedDistance (Binary32.integrationPass engine)[j].position
        (Binary32.integrationPass engine)[k].position) (F32.fin 64) = false) :
    ∃ b', (Binary32.Update engine).balls[i]? = some b' ∧
      b'.position =
        ⟨F32.add engine.balls[i].position.x engine.balls[i].velocity.x,
         F32.add engine.balls[i].position.y engine.balls[i].velocity.y⟩ := by
  have hp : Binary32.computedPosition engine.forces engine.balls[i].position
      engine.balls[i].velocity =
      ⟨F32.add engine.balls[i].position.x engine.balls[i].velocity.x,
       F32.add engine.balls[i].position.y engine.balls[i].velocity.y⟩ := by
    unfold Binary32.computedPosition
    rw [hF]
  refine ⟨_, Binary32.b32_Update_getElem? engine i hi hfar, ?_⟩
  rw [Binary32.b32_integrate_free _ _ hfree, hp,
    Binary32.b32_confine_of_inside _ _ hx1 hx2 hy1 hy2]

/-- C8, witness: bounds `(800, 600)`, forces `(0, 0.5)` and `(0, -0.5)`, a body
at `(200, 300)` with velocity `(3, 0)` and a second body at `(600, 300)` at
rest: the first body ends the tick at `(203, 300)`. -/
theorem update_binary32_zero_force_advances_witness :
    ∃ b', (Binary32.Update
        ⟨[⟨⟨F32.fin 200, F32.fin 300⟩, ⟨F32.fin 3, F32.fin 0⟩, false⟩,
          ⟨⟨F32.fin 600, F32.fin 300⟩, ⟨F32.fin 0, F32.fin 0⟩, false⟩],
         [⟨"Gravity", ⟨F32.fin 0, F32.fin (1 / 2)⟩⟩,
          ⟨"Wind", ⟨F32.fin 0, F32.fin (-1 / 2)⟩⟩], ⟨⟨800, 600⟩⟩⟩).balls[0]? = some b' ∧
      b'.position = ⟨F32.fin 203, F32.fin 300⟩ := by
  have hI : Binary32.integrationPass
      ⟨[⟨⟨F32.fin 200, F32.fin 300⟩, ⟨F32.fin 3, F32.fin 0⟩, false⟩,
        ⟨⟨F32.fin 600, F32.fin 300⟩, ⟨F32.fin 0, F32.fin 0⟩, false⟩],
       [⟨"Gravity", ⟨F32.fin 0, F32.fin (1 / 2)⟩⟩,
        ⟨"Wind", ⟨F32.fin 0, F32.fin (-1 / 2)⟩⟩], ⟨⟨800, 600⟩⟩⟩ =
      [⟨⟨F32.fin 203, F32.fin 300⟩, ⟨F32.fin 3, F32.fin 0⟩, false⟩,
       ⟨⟨F32.fin 600, F32.fin 300⟩, ⟨F32.fin 0, F32.fin 0⟩, false⟩] := by
    decide!
  obtain ⟨b', h1, h2⟩ := update_binary32_zero_force_advances
    ⟨[⟨⟨F32.fin 200, F32.fin 300⟩, ⟨F32.fin 3, F32.fin 0⟩, false⟩,
      ⟨⟨F32.fin 600, F32.fin 300⟩, ⟨F32.fin 0, F32.fin 0⟩, false⟩],
     [⟨"Gravity", ⟨F32.fin 0, F32.fin (1 / 2)⟩⟩,
      ⟨"Wind", ⟨F32.fin 0, F32.fin (-1 / 2)⟩⟩], ⟨⟨800, 600⟩⟩⟩ 0
    (by decide) rfl (by decide!) (by decide!) (by decide!) (by decide!) (by decide!)
    (by
      rw [hI]
      exact Binary32.b32_far_of_two _ _ (by decide!))
  exact ⟨b', h1, h2.trans (by decide!)⟩

/-- C9 (counterexample): three bodies at rest on one line, none dragged, under
the default forces, bounds `(800, 600)`.  The third body, at `(216, 300)`, is
at computed distance `116` and `66` from the other two both before the tick
and after the first loop, and its advanced position `(216, 300.5)` is strictly
inside the confinement interval.  The first two bodies overlap; resolving them
pushes the second to `(157, 300.5)`, within `59` of the third, and the pair
`(1, 2)` then moves the third body to `(218.5, 300.5)`, which is not
`p + v + F`. -/
theorem update_binary32_chain_collision_moves_clear_body :
    (Binary32.computedDistance ⟨F32.fin 100, F32.fin 300⟩ ⟨F32.fin 216, F32.fin 300⟩ =
        F32.fin 116 ∧
      Binary32.computedDistance ⟨F32.fin 150, F32.fin 300⟩ ⟨F32.fin 216, F32.fin 300⟩ =
        F32.fin 66) ∧
    Binary32.integrationPass
      ⟨[⟨⟨F32.fin 100, F32.fin 300⟩, ⟨F32.fin 0, F32.fin 0⟩, false⟩,
        ⟨⟨F32.fin 150, F32.fin 300⟩, ⟨F32.fin 0, F32.fin 0⟩, false⟩,
        ⟨⟨F32.fin 216, F32.fin 300⟩, ⟨F32.fin 0, F32.fin 0⟩, false⟩],
       [⟨"Gravity", ⟨F32.fin 0, F32.fin (1 / 2)⟩⟩, ⟨"Wind", ⟨F32.fin 0, F32.fin 0⟩⟩],
       ⟨⟨800, 600⟩⟩⟩ =
      [⟨⟨F32.fin 100, F32.fin (601 / 2)⟩, ⟨F32.fin 0, F32.fin (1 / 2)⟩, false⟩,
       ⟨⟨F32.fin 150, F32.fin (601 / 2)⟩, ⟨F32.fin 0, F32.fin (1 / 2)⟩, false⟩,
       ⟨⟨F32.fin 216, F32.fin (601 / 2)⟩, ⟨F32.fin 0, F32.fin (1 / 2)⟩, false⟩] ∧
    (Binary32.computedDistance ⟨F32.fin 100, F32.fin (601 / 2)⟩
        ⟨F32.fin 216, F32.fin (601 / 2)⟩ = F32.fin 116 ∧
      Binary32.computedDistance ⟨F32.fin 150, F32.fin (601 / 2)⟩
        ⟨F32.fin 216, F32.fin (601 / 2)⟩ = F32.fin 66) ∧
    (Binary32.Update
      ⟨[⟨⟨F32.fin 100, F32.fin 300⟩, ⟨F32.fin 0, F32.fin 0⟩, false⟩,
        ⟨⟨F32.fin 150, F32.fin 300⟩, ⟨F32.fin 0, F32.fin 0⟩, false⟩,
        ⟨⟨F32.fin 216, F32.fin 300⟩, ⟨F32.fin 0, F32.fin 0⟩, false⟩],
       [⟨"Gravity", ⟨F32.fin 0, F32.fin (1 / 2)⟩⟩, ⟨"Wind", ⟨F32.fin 0, F32.fin 0⟩⟩],
       ⟨⟨800, 600⟩⟩⟩).balls =
      [⟨⟨F32.fin 93, F32.fin (601 / 2)⟩, ⟨F32.fin 0, F32.fin (1 / 2)⟩, false⟩,
       ⟨⟨F32.fin (309 / 2), F32.fin (601 / 2)⟩, ⟨F32.fin 0, F32.fin (1 / 2)⟩, false⟩,
       ⟨⟨F32.fin (437 / 2), F32.fin (601 / 2)⟩, ⟨F32.fin 0, F32.fin (1 / 2)⟩, false⟩] ∧
    (437 / 2 : ℚ) ≠ 216 := by
  decide!

/-- C9 (amended): semi-implicit Euler step in binary32.  For a body that is not
dragged, with position `p` and velocity `v` before the tick: let `v1` be `v`
with the force vectors added one after another in stored order, and
`p1 = p + v1`, every sum a binary32 sum taken component by component.  If `p1`
lies strictly inside the confinement interval on both axes (above `16`, below
`bounds - 16`) and after the first loop of `Update` the distance the program
computes for every two bodies is not below `64` (no collision is resolved in
the tick), then after the tick the body has velocity `v1` and position
`p1`. -/
theorem update_binary32_euler_step (engine : BallEngine F32) (i : Nat)
    (hi : i < engine.balls.length)
    (hfree : engine.balls[i].isBeingDragged = false)
    (hx1 : F32.lt (F32.fin 16)
      (Binary32.computedPosition engine.forces engine.balls[i].position
        engine.balls[i].velocity).x = true)
    (hx2 : F32.lt
      (Binary32.computedPosition engine.forces engine.balls[i].position
        engine.balls[i].velocity).x
      (F32.sub (F32.ofInt engine.settings.bounds.x) (F32.fin 16)) = true)
    (hy1 : F32.lt (F32.fin 16)
      (Binary32.computedPosition engine.forces engine.balls[i].position
        engine.balls[i].velocity).y = true)
    (hy2 : F32.lt
      (Binary32.computedPosition engine.forces engine.balls[i].position
        engine.balls[i].velocity).y
      (F32.sub (F32.ofInt engine.settings.bounds.y) (F32.fin 16)) = true)
    (hfar : ∀ (j k : Nat) (hj : j < (Binary32.integrationPass engine).length)
      (hk : k < (Binary32.integrationPass engine).length), j < k →
      F32.lt (Binary32.computedDistance (Binary32.integrationPass engine)[j].position
        (Binary32.integrationPass engine)[k].position) (F32.fin 64) = false) :
    (Binary32.Update engine).balls[i]? = some
      ⟨Binary32.computedPosition engine.forces engine.balls[i].position
        engine.balls[i].velocity,
       Binary32.computedVelocity engine.forces engine.balls[i].velocity, false⟩ := by
  rw [Binary32.b32_Update_getElem? engine i hi hfar,
    Binary32.b32_integrate_free _ _ hfree,
    Binary32.b32_confine_of_inside _ _ hx1 hx2 hy1 hy2]

/-- C9, witness: the world constructed for bounds `(800, 600)`, whose first
body is at `(200, 300)` with velocity `(0, 0)` under the forces `(0, 0.5)` and
`(0, 0)`: after one tick its velocity is `(0, 0.5)` and its position
`(200, 300.5)`. -/
theorem update_binary32_euler_step_witness :
    (Binary32.Update (Binary32.BallEngine_new ⟨800, 600⟩)).balls[0]? =
      some ⟨⟨F32.fin 200, F32.fin (601 / 2)⟩, ⟨F32.fin 0, F32.fin (1 / 2)⟩, false⟩ := by
  have hI : Binary32.integrationPass (Binary32.BallEngine_new ⟨800, 600⟩) =
      [⟨⟨F32.fin 200, F32.fin (601 / 2)⟩, ⟨F32.fin 0, F32.fin (1 / 2)⟩, false⟩,
       ⟨⟨F32.fin 600, F32.fin (601 / 2)⟩, ⟨F32.fin 0, F32.fin (1 / 2)⟩, false⟩] := by
    decide!
  have h := update_binary32_euler_step (Binary32.BallEngine_new ⟨800, 600⟩) 0
    (by decide) rfl (by decide!) (by decide!) (by decide!) (by decide!)
    (by
      rw [hI]
      exact Binary32.b32_far_of_two _ _ (by decide!))
  exact h.trans (by decide!)

end Binary32Theorems

end PhysicsEngine
